import Mathlib

/-!
# sora-cpp-sdk-samples: pipe frame source and SDL sample

A shallow embedding of `pipe_video_src/src/pipe_video_capturer.cpp` and of the
configuration and track wiring of `sdl_sample/src/sdl_sample.cpp`, with the
properties of the specification proved (or refuted) on it.

Conventions of the embedding:

* `int` / `int32_t` values are mathematical integers (`Int`); where the source
  computes with them the result is wrapped by `wrap32`, and `/` is C's
  truncating division (`Int.tdiv`).
* Pointers are allocation identifiers (`Option Nat`, `none` is `nullptr`); the
  bytes of the frame buffer are kept next to the capturer as a `List UInt8`.
* System and SDK calls are modelled by their observable result, which is an
  input of the model, and by an entry in a list of effects.
-/

namespace PipeVideoSrc

/-! ## Machine integers and `errno` values -/

/-- Two's-complement wrap of a mathematical integer into the `int32_t` range. -/
def wrap32 (x : Int) : Int := (x + 2147483648) % 4294967296 - 2147483648

/-- Linux `errno` value of an interrupted system call. -/
def EINTR : Int := 4

/-- Linux `errno` value of "try again" (would block). -/
def EAGAIN : Int := 11

/-! ## Data model (`pipe_video_capturer.h`) -/

/-- The struct `PipeVideoCapturerConfig`, with its default member values. -/
structure PipeVideoCapturerConfig where
  video_fifo : String
  width : Int := 640
  height : Int := 480
  framerate : Int := 30
deriving DecidableEq

/-- The data members of class `PipeVideoCapturer`.  `_buffer` is the address of
the frame buffer (`none` is `nullptr`), `_captureThread` the handle of the
reader thread (`none` is `_captureThread.empty()`). -/
structure PipeVideoCapturer where
  _fd : Int
  _width : Int
  _height : Int
  _framerate : Int
  _bufsize : Int
  _buffer : Option Nat
  _captureThread : Option Nat
  quit_ : Bool
  _captureStarted : Bool
deriving DecidableEq

/-- What a member function does to the world outside the object, in program
order. -/
inductive Effect
  /-- The call `_captureThread.Finalize()`: the reader thread is joined. -/
  | join (thread : Nat)
  /-- The statement `delete _buffer`. -/
  | delete (ptr : Option Nat)
  /-- The call `close(fd)`. -/
  | close (fd : Int)
  /-- The expression `new uint8_t[size]`, with the pointer it returned
  (`none` when it threw `std::bad_alloc`). -/
  | alloc (size : Int) (result : Option Nat)
  /-- The call `rtc::PlatformThread::SpawnJoinable` running `CaptureThread`. -/
  | spawn (thread : Nat)
deriving DecidableEq

/-- The results the runtime gives to one `StartCapture` call: the pointer
`operator new[]` returns when it has memory (`none`: it throws
`std::bad_alloc`), and the handle of the thread `SpawnJoinable` creates. -/
structure Runtime where
  newResult : Option Nat
  threadHandle : Nat
deriving DecidableEq

/-- The expression `new uint8_t[size]` for an `int32_t` size: a negative size
always throws (`std::bad_array_new_length`, which is a `std::bad_alloc`),
otherwise the runtime decides. -/
def operatorNew (rt : Runtime) (size : Int) : Option Nat :=
  if size < 0 then none else rt.newResult

/-- The constructor `PipeVideoCapturer::PipeVideoCapturer()`.  It leaves
`_bufsize`, `_buffer` and `quit_` uninitialised: their indeterminate values
are arguments. -/
def PipeVideoCapturer.ctor (bufsize : Int) (buffer : Option Nat) (quit : Bool) :
    PipeVideoCapturer :=
  { _fd := -1, _width := -1, _height := -1, _framerate := -1,
    _bufsize := bufsize, _buffer := buffer, _captureThread := none,
    quit_ := quit, _captureStarted := false }

/-! ## `AllocateVideoBuffers`, `DeAllocateVideoBuffers`, `StopCapture`, `StartCapture` -/

/-- The `int32_t` expression `_width * (_height + _height / 2)` that
`AllocateVideoBuffers` stores in `_bufsize`. -/
def frameBytes (width height : Int) : Int :=
  wrap32 (width * wrap32 (height + Int.tdiv height 2))

/-- The member function `PipeVideoCapturer::AllocateVideoBuffers`. -/
def AllocateVideoBuffers (c : PipeVideoCapturer) (rt : Runtime) :
    Bool × PipeVideoCapturer × List Effect :=
  let bufsize := frameBytes c._width c._height
  let c1 := { c with _bufsize := bufsize, _buffer := none }
  match operatorNew rt bufsize with
  | none => (false, c1, [Effect.alloc bufsize none])
  | some p => (true, { c1 with _buffer := some p }, [Effect.alloc bufsize (some p)])

/-- The member function `PipeVideoCapturer::DeAllocateVideoBuffers`: it deletes
the buffer and leaves the pointer member as it is. -/
def DeAllocateVideoBuffers (c : PipeVideoCapturer) :
    Bool × PipeVideoCapturer × List Effect :=
  (true, c, [Effect.delete c._buffer])

/-- The member function `PipeVideoCapturer::StopCapture`. -/
def StopCapture (c : PipeVideoCapturer) : Int × PipeVideoCapturer × List Effect :=
  let (c1, e1) : PipeVideoCapturer × List Effect :=
    match c._captureThread with
    | some t => ({ c with quit_ := true, _captureThread := none }, [Effect.join t])
    | none => (c, [])
  if c1._captureStarted then
    let c2 := { c1 with _captureStarted := false }
    let (_, c3, e3) := DeAllocateVideoBuffers c2
    if c3._fd ≠ 0 then
      (0, { c3 with _fd := -1 }, e1 ++ e3 ++ [Effect.close c3._fd])
    else
      (0, c3, e1 ++ e3)
  else
    (0, c1, e1)

/-- The part of `StartCapture` after the check of a running session. -/
def StartCapture.start (c : PipeVideoCapturer) (config : PipeVideoCapturerConfig)
    (rt : Runtime) : Int × PipeVideoCapturer × List Effect :=
  let c1 := { c with _width := config.width, _height := config.height,
                     _framerate := config.framerate }
  match AllocateVideoBuffers c1 rt with
  | (false, c2, e2) => (-1, c2, e2)
  | (true, c2, e2) =>
    let (c3, e3) : PipeVideoCapturer × List Effect :=
      match c2._captureThread with
      | none => ({ c2 with quit_ := false, _captureThread := some rt.threadHandle },
                 [Effect.spawn rt.threadHandle])
      | some _ => (c2, [])
    (0, { c3 with _captureStarted := true }, e2 ++ e3)

/-- The member function `PipeVideoCapturer::StartCapture`. -/
def StartCapture (c : PipeVideoCapturer) (config : PipeVideoCapturerConfig)
    (rt : Runtime) : Int × PipeVideoCapturer × List Effect :=
  if c._captureStarted then
    if config.width = c._width ∧ config.height = c._height then
      (0, c, [])
    else
      let (_, c1, e1) := StopCapture c
      let (r, c2, e2) := StartCapture.start c1 config rt
      (r, c2, e1 ++ e2)
  else
    StartCapture.start c config rt

/-! ## `Init` and sequences of calls -/

/-- What the system answers during one `Init` call: the value
`open(pipeName, O_RDONLY)` returns, whether `fstat` succeeds and reports a
FIFO, and the number `atoi` reads from `/proc/sys/fs/pipe-max-size` (`none`
when `fopen` or `fgets` fails). -/
structure InitEnv where
  openResult : Int
  isFifo : Bool
  pipeMaxSize : Option Int
deriving DecidableEq

/-- The member function `PipeVideoCapturer::Init`: the returned value, the
capturer, and the size passed to `fcntl(_fd, F_SETPIPE_SZ, pipe_size)` when
that call is made. -/
def Init (c : PipeVideoCapturer) (pipeName : String) (env : InitEnv) :
    Int × PipeVideoCapturer × Option Int :=
  let c1 : PipeVideoCapturer :=
    if pipeName = "-" then { c with _fd := 0 } else { c with _fd := env.openResult }
  if pipeName ≠ "-" ∧ c1._fd < 0 then
    (-1, c1, none)
  else if env.isFifo then
    let pipe_size : Int :=
      match env.pipeMaxSize with
      | some n => n
      | none => 1024 * 1024
    (0, c1, some pipe_size)
  else
    (0, c1, none)

/-- A call of `StartCapture` or `StopCapture` on the capturer, with what the
runtime answers to it. -/
inductive Call
  | StartCapture (config : PipeVideoCapturerConfig) (rt : Runtime)
  | StopCapture
deriving DecidableEq

/-- The capturer after one call. -/
def Call.apply (c : PipeVideoCapturer) : Call → PipeVideoCapturer
  | Call.StartCapture config rt => (PipeVideoSrc.StartCapture c config rt).2.1
  | Call.StopCapture => (PipeVideoSrc.StopCapture c).2.1

/-- The buffer allocation of a call succeeds: `new uint8_t[_bufsize]` for the
requested dimensions returns a pointer. -/
def Call.allocates : Call → Bool
  | Call.StartCapture config rt =>
    (operatorNew rt (frameBytes config.width config.height)).isSome
  | Call.StopCapture => true

/-- The capturer after a finite sequence of calls, first call first. -/
def runCalls (c : PipeVideoCapturer) (calls : List Call) : PipeVideoCapturer :=
  calls.foldl Call.apply c

/-! ## The pipe as the reader thread sees it

The reader thread touches the world through `select` and `read` on `_fd`.  The
model takes `_fd` to be the read end of a pipe whose writer has written
`pending` and closed its end, and lets a schedule decide how each system call
turns out; when the schedule is used up the calls succeed at once. -/

/-- The outcome of one call `select(_fd + 1, &rSet, NULL, NULL, &timeout)`: its
return value, `errno` after it, and the value of `FD_ISSET(_fd, &rSet)` after
it. -/
structure SelectResult where
  retVal : Int
  errno : Int
  isset : Bool
deriving DecidableEq

/-- How one scheduled call `read(_fd, p, count)` turns out: `data n` when `n`
bytes of the pipe are available to it (it returns at most `count` of them), or
`error e` when it returns `-1` with `errno = e`. -/
inductive ReadOutcome
  | data (n : Nat)
  | error (errno : Int)
deriving DecidableEq

/-- The pipe behind `_fd`: the scheduled outcomes of the coming `select` and
`read` calls, the bytes written and not yet read (end-of-file follows them),
and the number of `read` calls made so far. -/
structure Pipe where
  selects : List SelectResult
  reads : List ReadOutcome
  pending : List UInt8
  readCalls : Nat
deriving DecidableEq

/-- One `select` call.  Past the schedule the descriptor is readable (a pipe
at end-of-file is readable too). -/
def sys_select (p : Pipe) : SelectResult × Pipe :=
  match p.selects with
  | [] => ({ retVal := 1, errno := 0, isset := true }, p)
  | r :: rs => (r, { p with selects := rs })

/-- One call `read(_fd, p, count)` after `errno = 0`: the return value, `errno`
after the call, the bytes stored at `p`, and the pipe afterwards.  A read that
finds no pending byte returns `0` (end-of-file). -/
def sys_read (p : Pipe) (count : Nat) : Int × Int × List UInt8 × Pipe :=
  match p.reads with
  | [] =>
    let chunk := p.pending.take count
    (chunk.length, 0, chunk,
      { p with pending := p.pending.drop count, readCalls := p.readCalls + 1 })
  | ReadOutcome.error e :: rs =>
    (-1, e, [], { p with reads := rs, readCalls := p.readCalls + 1 })
  | ReadOutcome.data n :: rs =>
    let chunk := p.pending.take (min n count)
    (chunk.length, 0, chunk,
      { p with reads := rs, pending := p.pending.drop (min n count),
               readCalls := p.readCalls + 1 })

/-- The store of `bytes` into the buffer `buf` from offset `off` on. -/
def writeAt (buf : List UInt8) (off : Nat) (bytes : List UInt8) : List UInt8 :=
  buf.take off ++ bytes ++ buf.drop (off + bytes.length)

/-! ## The reader thread: `CaptureProcess`, `CaptureThread` -/

/-- The loop `while (to_read > 0)` of `CaptureProcess`, from the values
`to_read` and `bytes_read` on.  The first component of the result is `none`
for `return false` and `some bytes_read` when the loop is left (by its
condition or by `break`); the whole result is `none` when `fuel` iterations
were not enough. -/
def readLoop (fuel : Nat) (to_read bytes_read : Int) (buf : List UInt8) (p : Pipe) :
    Option (Option Int × List UInt8 × Pipe) :=
  if to_read > 0 then
    match fuel with
    | 0 => none
    | fuel + 1 =>
      let (ret, errno, bytes, p1) := sys_read p to_read.toNat
      let buf1 := writeAt buf bytes_read.toNat bytes
      if ret < 0 then
        if errno = EAGAIN ∨ errno = EINTR then
          readLoop fuel to_read bytes_read buf1 p1
        else
          some (none, buf1, p1)
      else if ret = 0 then
        if bytes_read > 0 then some (some bytes_read, buf1, p1)
        else some (none, buf1, p1)
      else
        readLoop fuel (to_read - ret) (bytes_read + ret) buf1 p1
  else
    some (some bytes_read, buf, p)

/-- The member function `PipeVideoCapturer::CaptureProcess`, one step of the
reader loop, on the capturer `c` whose frame buffer holds `buf`.  The result is
the returned flag, the buffer, the pipe, and the arguments of the `OnCaptured`
calls made (the bytes of `_buffer` at the call); `none` when `fuel` iterations
of the read loop were not enough. -/
def CaptureProcess (fuel : Nat) (c : PipeVideoCapturer) (buf : List UInt8) (p : Pipe) :
    Option (Bool × List UInt8 × Pipe × List (List UInt8)) :=
  let (r, p1) := sys_select p
  if c.quit_ then
    some (false, buf, p1, [])
  else if r.retVal < 0 ∧ r.errno ≠ EINTR then
    some (false, buf, p1, [])
  else if r.retVal = 0 then
    some (true, buf, p1, [])
  else if !r.isset then
    some (true, buf, p1, [])
  else if c._captureStarted then
    match readLoop fuel c._bufsize 0 buf p1 with
    | none => none
    | some (none, buf2, p2) => some (false, buf2, p2, [])
    | some (some bytes_read, buf2, p2) =>
      if bytes_read = c._bufsize then
        some (true, buf2, p2, [buf2])
      else
        some (true, buf2, p2, [])
  else
    some (true, buf, p1, [])

/-- The loop `while (capturer->CaptureProcess()) {}` for at most `fuel`
steps, each with `inner` iterations for its read loop: the buffer and the pipe
when the loop ends and the `OnCaptured` arguments in call order; `none` when
the loop has not ended by then. -/
def CaptureThread.loop (inner : Nat) (c : PipeVideoCapturer) :
    Nat → List UInt8 → Pipe → Option (List UInt8 × Pipe × List (List UInt8))
  | 0, _, _ => none
  | fuel + 1, buf, p =>
    match CaptureProcess inner c buf p with
    | none => none
    | some (false, buf1, p1, fs) => some (buf1, p1, fs)
    | some (true, buf1, p1, fs) =>
      match CaptureThread.loop inner c fuel buf1 p1 with
      | none => none
      | some (buf2, p2, gs) => some (buf2, p2, fs ++ gs)

/-- The static member function `PipeVideoCapturer::CaptureThread`, with `fuel`
bounding both the steps of the loop and the iterations of each read loop. -/
def CaptureThread (fuel : Nat) (c : PipeVideoCapturer) (buf : List UInt8) (p : Pipe) :
    Option (List UInt8 × Pipe × List (List UInt8)) :=
  CaptureThread.loop fuel c fuel buf p

/-- Read outcomes of a pipe in working order: some bytes, or a failure with
`EAGAIN` or `EINTR`. -/
def ReadOutcome.benign : ReadOutcome → Bool
  | ReadOutcome.data n => decide (0 < n)
  | ReadOutcome.error e => decide (e = EAGAIN ∨ e = EINTR)

/-- Select outcomes of a pipe in working order: a timeout (`0`), an interrupted
wait (negative with `EINTR`), or a positive count. -/
def SelectResult.benign (r : SelectResult) : Bool :=
  decide (r.retVal = 0 ∨ (r.retVal < 0 ∧ r.errno = EINTR) ∨ 0 < r.retVal)

/-- How the read loop entered with `to_read = t` and `bytes_read = b` ends on
a pipe in working order holding `n` pending bytes. -/
def readExit (t b n : Nat) : Option Int :=
  if t ≤ n then some ((b + t : Nat) : Int)
  else if 0 < b + n then some ((b + n : Nat) : Int)
  else none

/-- What the read loop entered with `to_read = t`, `bytes_read = b`, buffer
`buf` and pipe `p` establishes. -/
def ReadPost (t b : Nat) (buf : List UInt8) (p : Pipe)
    (res : Option (Option Int × List UInt8 × Pipe)) : Prop :=
  ∃ buf1 p1, res = some (readExit t b p.pending.length, buf1, p1) ∧
    buf1.length = buf.length ∧
    buf1.take (b + min t p.pending.length) = buf.take b ++ p.pending.take t ∧
    p1.pending = p.pending.drop t ∧
    p1.reads.length ≤ p.reads.length ∧
    (∀ o ∈ p1.reads, o ∈ p.reads) ∧
    p1.selects = p.selects

/-! ## Sample data for the concrete instances -/

/-- A capturer after the constructor and `Init("-")`, which sets `_fd = 0`. -/
def sampleCapturer : PipeVideoCapturer :=
  { PipeVideoCapturer.ctor 0 none false with _fd := 0 }

/-- A capturer after the constructor and an `Init` that opened descriptor 5. -/
def sampleFifoCapturer : PipeVideoCapturer :=
  { PipeVideoCapturer.ctor 0 none false with _fd := 5 }

/-- A configuration with frames of `2 * (2 + 1) = 6` bytes. -/
def sampleConfig : PipeVideoCapturerConfig :=
  { video_fifo := "-", width := 2, height := 2 }

/-- A runtime whose `new` returns address 7 and whose thread has handle 1. -/
def sampleRuntime : Runtime := { newResult := some 7, threadHandle := 1 }

/-- Two frames of six bytes. -/
def sampleFrames : List (List UInt8) := [[1, 2, 3, 4, 5, 6], [7, 8, 9, 10, 11, 12]]

/-- A wait schedule: a timeout, then an interrupted wait. -/
def sampleSelects : List SelectResult :=
  [{ retVal := 0, errno := 0, isset := false },
   { retVal := -1, errno := EINTR, isset := true }]

/-- A read schedule: one byte, `EAGAIN`, four bytes. -/
def sampleReads : List ReadOutcome :=
  [ReadOutcome.data 1, ReadOutcome.error EAGAIN, ReadOutcome.data 4]

/-- The answers to an `Init` whose `open` returns descriptor 5, a FIFO. -/
def sampleInitEnv : InitEnv :=
  { openResult := 5, isFifo := true, pipeMaxSize := some 1048576 }

/-- A configuration with frames of `4 * (2 + 1) = 12` bytes. -/
def sampleWideConfig : PipeVideoCapturerConfig :=
  { video_fifo := "fifo", width := 4, height := 2 }

/-- A runtime whose `new` returns address 9 and whose thread has handle 2. -/
def sampleSecondRuntime : Runtime := { newResult := some 9, threadHandle := 2 }

/-! ## The frame layout of `OnCaptured` -/

/-- The arguments `OnCaptured` passes to `webrtc::I420Buffer::Copy`; the three
plane pointers are given as offsets from `data`. -/
structure I420CopyArgs where
  width : Int
  height : Int
  data_y : Int
  stride_y : Int
  data_u : Int
  stride_u : Int
  data_v : Int
  stride_v : Int
deriving DecidableEq

/-- The call of `I420Buffer::Copy` in `PipeVideoCapturer::OnCaptured`:
`Copy(w, h, data, w, data + (w * h), w/2, data + (w * h) + (w/2 * h/2), w/2)`,
where `w/2 * h/2` is `((w/2) * h) / 2` in C. -/
def OnCaptured (c : PipeVideoCapturer) : I420CopyArgs :=
  let w := c._width
  let h := c._height
  { width := w, height := h,
    data_y := 0, stride_y := w,
    data_u := wrap32 (w * h), stride_u := Int.tdiv w 2,
    data_v := wrap32 (w * h) + wrap32 (Int.tdiv (wrap32 (Int.tdiv w 2 * h)) 2),
    stride_v := Int.tdiv w 2 }

/-- One past the last byte read of a plane that starts at offset `off` and has
`rows` rows of `cols` bytes, `stride` bytes apart (the plane copy of
`I420Buffer::Copy`). -/
def planeEnd (off stride cols rows : Int) : Int :=
  off + stride * (rows - 1) + cols

/-- Width and height of a chroma plane of an I420 frame: half the size, rounded
up, as `I420Buffer` computes them. -/
def chromaSize (n : Int) : Int := Int.tdiv (n + 1) 2

/-- The frame size in the specification's words: "each exactly
`width*height + 2*(width/2*height/2)` bytes", read as the C expression it
is. -/
def documentedFrameSize (width height : Int) : Int :=
  width * height + 2 * Int.tdiv (Int.tdiv width 2 * height) 2

end PipeVideoSrc

namespace SdlSample

open PipeVideoSrc (wrap32)

/-! ## `SDLSampleConfig` and `GetSize` (`sdl_sample.cpp`) -/

/-- The struct `SDLSampleConfig::Size`. -/
structure Size where
  width : Int
  height : Int
deriving DecidableEq

/-- The members of struct `SDLSampleConfig` declared in `sdl_sample.cpp`, with
their default values. -/
structure SDLSampleConfig where
  signaling_url : String := ""
  channel_id : String := ""
  role : String := ""
  video_codec_type : String := ""
  metadata : String := ""
  no_video_device : Bool := false
  no_audio_device : Bool := false
  video_device : String := ""
  resolution : String := "VGA"
  framerate : Int := 30
  multistream : Bool := false
  width : Int := 640
  height : Int := 480
  show_me : Bool := false
  fullscreen : Bool := false
  disable_echo_cancellation : Bool := false
  disable_auto_gain_control : Bool := false
  disable_noise_suppression : Bool := false
  disable_highpass_filter : Bool := false
  disable_residual_echo_detector : Bool := false
deriving DecidableEq

/-- The call `std::string::find(ch)`: the index of the first `ch`, `none` for
`std::string::npos`. -/
def find : List Char → Char → Option Nat
  | [], _ => none
  | d :: ds, ch => if d = ch then some 0 else (find ds ch).map (fun i => i + 1)

/-- The C library predicate `isspace` in the "C" locale. -/
def isspace (ch : Char) : Bool :=
  decide (ch.toNat = 32 ∨ (9 ≤ ch.toNat ∧ ch.toNat ≤ 13))

/-- The C library predicate `isdigit`. -/
def isdigit (ch : Char) : Bool :=
  decide (48 ≤ ch.toNat ∧ ch.toNat ≤ 57)

/-- The number read from the leading decimal digits of a string, continuing
from `acc`. -/
def digitsValue (acc : Nat) : List Char → Nat
  | [] => acc
  | ch :: cs => if isdigit ch then digitsValue (acc * 10 + (ch.toNat - 48)) cs else acc

/-- The clamp of `strtol` to the range of a 64-bit `long`. -/
def saturate64 (x : Int) : Int :=
  if x < -9223372036854775808 then -9223372036854775808
  else if 9223372036854775807 < x then 9223372036854775807
  else x

/-- The C library function `strtol(s, NULL, 10)`: white space, an optional
sign, then decimal digits. -/
def strtol (s : List Char) : Int :=
  match s.dropWhile isspace with
  | '-' :: ds => saturate64 (-(digitsValue 0 ds : Int))
  | '+' :: ds => saturate64 (digitsValue 0 ds : Int)
  | ds => saturate64 (digitsValue 0 ds : Int)

/-- The C library function `atoi`, as glibc defines it: `(int) strtol(s, NULL,
10)`.  (The C standard leaves the result undefined when the number is not
representable as an `int`.) -/
def atoi (s : List Char) : Int := wrap32 (strtol s)

/-- The member function `SDLSampleConfig::GetSize`. -/
def SDLSampleConfig.GetSize (config : SDLSampleConfig) : Size :=
  let resolution := config.resolution
  if resolution = "QVGA" then { width := 320, height := 240 }
  else if resolution = "VGA" then { width := 640, height := 480 }
  else if resolution = "HD" then { width := 1280, height := 720 }
  else if resolution = "FHD" then { width := 1920, height := 1080 }
  else if resolution = "4K" then { width := 3840, height := 2160 }
  else
    match find resolution.data 'x' with
    | none => { width := 16, height := 16 }
    | some pos =>
      let width := atoi (resolution.data.take pos)
      let height := atoi (resolution.data.drop (pos + 1))
      { width := max 16 width, height := max 16 height }

/-- A full match of the regular expression `[1-9][0-9]*`. -/
def matchesNumber : List Char → Bool
  | [] => false
  | ch :: cs => decide (49 ≤ ch.toNat ∧ ch.toNat ≤ 57) && cs.all isdigit

/-- The call `std::regex_match(input, re)` for
`re = "^[1-9][0-9]*x[1-9][0-9]*$"`.  Neither number can hold an `x`, so the
separator is the first `x` of the input. -/
def regex_match (input : List Char) : Bool :=
  match find input 'x' with
  | none => false
  | some pos => matchesNumber (input.take pos) && matchesNumber (input.drop (pos + 1))

/-- The validator `is_valid_resolution` of `main`: the empty string when the
input is accepted, the error text otherwise. -/
def is_valid_resolution (input : String) : String :=
  if input = "QVGA" ∨ input = "VGA" ∨ input = "HD" ∨ input = "FHD" ∨ input = "4K" then
    ""
  else if regex_match input.data then
    ""
  else
    "Must be one of QVGA, VGA, HD, FHD, 4K, or [WIDTH]x[HEIGHT]."

/-- The text of a decimal numeral given by its digits, most significant
first. -/
def numeral (digits : List Nat) : List Char := digits.map Nat.digitChar

/-- The number a decimal numeral denotes (digits most significant first). -/
def numeralValue (digits : List Nat) : Nat := Nat.ofDigits 10 digits.reverse

/-! ## `SDLSample::Run` and `SDLSample::OnSetOffer` -/

/-- The members of `cricket::AudioOptions` that `Run` sets; each is an
`absl::optional<bool>`, unset by default. -/
structure AudioOptions where
  echo_cancellation : Option Bool := none
  auto_gain_control : Option Bool := none
  noise_suppression : Option Bool := none
  highpass_filter : Option Bool := none
  residual_echo_detector : Option Bool := none
deriving DecidableEq

/-- The members of `sora::CameraDeviceCapturerConfig` that `Run` sets. -/
structure CameraDeviceCapturerConfig where
  width : Int
  height : Int
  fps : Int
  device_name : String
deriving DecidableEq

/-- A video source, known by the configuration `CreateCameraDeviceCapturer`
was called with. -/
structure VideoSource where
  cam_config : CameraDeviceCapturerConfig
deriving DecidableEq

/-- An audio source, known by the options `CreateAudioSource` was called
with. -/
structure AudioSource where
  options : AudioOptions
deriving DecidableEq

/-- A video track, known by the arguments of `CreateVideoTrack`. -/
structure VideoTrack where
  label : String
  source : Option VideoSource
deriving DecidableEq

/-- An audio track, known by the arguments of `CreateAudioTrack`. -/
structure AudioTrack where
  label : String
  source : Option AudioSource
deriving DecidableEq

/-- An `SDLRenderer`, known by its constructor arguments and the tracks added
to it. -/
structure SDLRenderer where
  width : Int
  height : Int
  fullscreen : Bool
  tracks : List (Option VideoTrack)
deriving DecidableEq

/-- What the SDK answers during one run: the strings `GenerateRandomChars`
returns for the video track, the audio track and the stream, and whether each
factory call gives an object (`false`: it returns a null pointer). -/
structure Sdk where
  videoLabel : String
  audioLabel : String
  streamId : String
  cameraOk : Bool
  videoTrackOk : Bool
  audioSourceOk : Bool
  audioTrackOk : Bool
deriving DecidableEq

/-- The call `sora::CreateCameraDeviceCapturer(cam_config)`. -/
def Sdk.CreateCameraDeviceCapturer (sdk : Sdk) (cam_config : CameraDeviceCapturerConfig) :
    Option VideoSource :=
  if sdk.cameraOk then some { cam_config := cam_config } else none

/-- The call `factory()->CreateVideoTrack(label, source)`. -/
def Sdk.CreateVideoTrack (sdk : Sdk) (label : String) (source : Option VideoSource) :
    Option VideoTrack :=
  if sdk.videoTrackOk then some { label := label, source := source } else none

/-- The call `factory()->CreateAudioSource(options)`. -/
def Sdk.CreateAudioSource (sdk : Sdk) (options : AudioOptions) : Option AudioSource :=
  if sdk.audioSourceOk then some { options := options } else none

/-- The call `factory()->CreateAudioTrack(label, source)`. -/
def Sdk.CreateAudioTrack (sdk : Sdk) (label : String) (source : Option AudioSource) :
    Option AudioTrack :=
  if sdk.audioTrackOk then some { label := label, source := source } else none

/-- The data members of class `SDLSample` that `Run` sets before it connects,
and the audio options `Run` writes to the log. -/
structure SDLSample where
  config_ : SDLSampleConfig
  audio_track_ : Option AudioTrack
  video_track_ : Option VideoTrack
  renderer_ : Option SDLRenderer
  logged_ao : Option AudioOptions
deriving DecidableEq

/-- The constructor `SDLSample::SDLSample(config)`: the smart pointers start
out null. -/
def SDLSample.ctor (config : SDLSampleConfig) : SDLSample :=
  { config_ := config, audio_track_ := none, video_track_ := none, renderer_ := none,
    logged_ao := none }

/-- The member function `SDLSample::Run`, up to the creation of the signaling
connection: the renderer and the outgoing tracks. -/
def SDLSample.Run (s : SDLSample) (sdk : Sdk) : SDLSample :=
  let config_ := s.config_
  let s1 : SDLSample := { s with renderer_ := none }
  let s2 : SDLSample :=
    if config_.role ≠ "sendonly" ∨ config_.show_me then
      { s1 with renderer_ := some { width := config_.width, height := config_.height,
                                    fullscreen := config_.fullscreen, tracks := [] } }
    else s1
  if config_.role ≠ "recvonly" then
    let s3 : SDLSample :=
      if !config_.no_video_device then
        let size := config_.GetSize
        let cam_config : CameraDeviceCapturerConfig :=
          { width := size.width, height := size.height, fps := config_.framerate,
            device_name := config_.video_device }
        let video_source := sdk.CreateCameraDeviceCapturer cam_config
        let video_track := sdk.CreateVideoTrack sdk.videoLabel video_source
        let s2a : SDLSample := { s2 with video_track_ := video_track }
        if config_.show_me then
          { s2a with renderer_ :=
              s2a.renderer_.map fun r => { r with tracks := r.tracks ++ [video_track] } }
        else s2a
      else s2
    if !config_.no_audio_device then
      let ao : AudioOptions := {}
      let ao := if config_.disable_echo_cancellation then
        { ao with echo_cancellation := some false } else ao
      let ao := if config_.disable_auto_gain_control then
        { ao with auto_gain_control := some false } else ao
      let ao := if config_.disable_noise_suppression then
        { ao with noise_suppression := some false } else ao
      let ao := if config_.disable_highpass_filter then
        { ao with highpass_filter := some false } else ao
      let ao := if config_.disable_residual_echo_detector then
        { ao with residual_echo_detector := some false } else ao
      let audio_source := sdk.CreateAudioSource {}
      { s3 with logged_ao := some ao,
                audio_track_ := sdk.CreateAudioTrack sdk.audioLabel audio_source }
    else s3
  else s2

/-- A call `conn_->GetPeerConnection()->AddTrack(track, {stream_id})`. -/
inductive AddTrackCall
  | audio (track : AudioTrack) (stream_ids : List String)
  | video (track : VideoTrack) (stream_ids : List String)
deriving DecidableEq

/-- The member function `SDLSample::OnSetOffer`: the `AddTrack` calls it makes
on the peer connection, in order. -/
def SDLSample.OnSetOffer (s : SDLSample) (sdk : Sdk) : List AddTrackCall :=
  let stream_id := sdk.streamId
  (match s.audio_track_ with
    | some t => [AddTrackCall.audio t [stream_id]]
    | none => []) ++
  (match s.video_track_ with
    | some t => [AddTrackCall.video t [stream_id]]
    | none => [])

/-- An SDK run in which every factory call gives an object. -/
def sampleSdk : Sdk :=
  { videoLabel := "v", audioLabel := "a", streamId := "s", cameraOk := true,
    videoTrackOk := true, audioSourceOk := true, audioTrackOk := true }

end SdlSample

namespace PipeVideoSrc

/-! ## Lemmas on the read loop -/

theorem writeAt_nil (buf : List UInt8) (off : Nat) : writeAt buf off [] = buf := by
  simp [writeAt]

theorem writeAt_length (buf : List UInt8) (off : Nat) (bytes : List UInt8)
    (h : off + bytes.length ≤ buf.length) : (writeAt buf off bytes).length = buf.length := by
  simp [writeAt]
  omega

theorem writeAt_take (buf : List UInt8) (off : Nat) (bytes : List UInt8)
    (h : off ≤ buf.length) :
    (writeAt buf off bytes).take (off + bytes.length) = buf.take off ++ bytes := by
  have h1 : (buf.take off ++ bytes).length = off + bytes.length := by
    simp [List.length_take]
    omega
  unfold writeAt
  rw [← h1, List.take_left]

theorem drop_min_length (l : List UInt8) (n : Nat) :
    l.drop n = l.drop (min n l.length) := by
  rcases Nat.le_total n l.length with h | h
  · rw [Nat.min_eq_left h]
  · rw [Nat.min_eq_right h, List.drop_length, List.drop_eq_nil_of_le h]

theorem take_min_length (l : List UInt8) (n : Nat) :
    l.take n = l.take (min n l.length) := by
  rcases Nat.le_total n l.length with h | h
  · rw [Nat.min_eq_left h]
  · rw [Nat.min_eq_right h, List.take_length, List.take_of_length_le h]

theorem readExit_shift (t b n k : Nat) (hk : 0 < k) (hkt : k ≤ t) (hkn : k ≤ n) :
    readExit (t - k) (b + k) (n - k) = readExit t b n := by
  unfold readExit
  have e1 : b + k + (t - k) = b + t := by omega
  have e2 : b + k + (n - k) = b + n := by omega
  by_cases h : t ≤ n
  · have h2 : t - k ≤ n - k := by omega
    simp [h, h2, e1]
  · have h2 : ¬ (t - k ≤ n - k) := by omega
    have h3 : 0 < b + n := by omega
    simp [h, h2, e2, h3]

theorem ReadPost.shift {t b k : Nat} {buf : List UInt8} {p q : Pipe}
    {res : Option (Option Int × List UInt8 × Pipe)}
    (hlen : buf.length = b + t) (hk : 0 < k) (hkt : k ≤ t) (hkn : k ≤ p.pending.length)
    (hq : q.pending = p.pending.drop k) (hqr : q.reads.length ≤ p.reads.length)
    (hqm : ∀ o ∈ q.reads, o ∈ p.reads) (hqs : q.selects = p.selects)
    (h : ReadPost (t - k) (b + k) (writeAt buf b (p.pending.take k)) q res) :
    ReadPost t b buf p res := by
  obtain ⟨buf1, p1, hres, hl, htk, hpend, hr, hm, hs⟩ := h
  have hcl : (p.pending.take k).length = k := by simp [List.length_take]; omega
  have hql : q.pending.length = p.pending.length - k := by simp [hq]
  refine ⟨buf1, p1, ?_, ?_, ?_, ?_, ?_, ?_, ?_⟩
  · rw [hres, hql, readExit_shift t b _ k hk hkt hkn]
  · rw [hl, writeAt_length]
    omega
  · have e : b + k + min (t - k) q.pending.length = b + min t p.pending.length := by
      rw [hql]; omega
    rw [e] at htk
    rw [htk]
    have w := writeAt_take buf b (p.pending.take k) (by omega)
    rw [hcl] at w
    rw [w, hq, List.append_assoc]
    congr 1
    have e2 : t = k + (t - k) := by omega
    conv_rhs => rw [e2, List.take_add]
  · rw [hpend, hq, List.drop_drop]
    congr 1
    omega
  · omega
  · intro o ho
    exact hqm o (hm o ho)
  · rw [hs, hqs]

theorem ReadPost.same_pending {t b : Nat} {buf : List UInt8} {p q : Pipe}
    {res : Option (Option Int × List UInt8 × Pipe)}
    (hq : q.pending = p.pending) (hqr : q.reads.length ≤ p.reads.length)
    (hqm : ∀ o ∈ q.reads, o ∈ p.reads) (hqs : q.selects = p.selects)
    (h : ReadPost t b buf q res) : ReadPost t b buf p res := by
  obtain ⟨buf1, p1, hres, hl, htk, hpend, hr, hm, hs⟩ := h
  rw [hq] at hres htk hpend
  exact ⟨buf1, p1, hres, hl, htk, hpend, le_trans hr hqr,
    fun o ho => hqm o (hm o ho), by rw [hs, hqs]⟩

theorem readLoop_spec (fuel : Nat) : ∀ (t b : Nat) (buf : List UInt8) (p : Pipe),
    buf.length = b + t → (∀ o ∈ p.reads, o.benign = true) → p.reads.length + t < fuel →
    ReadPost t b buf p (readLoop fuel (t : Int) (b : Int) buf p) := by
  induction fuel with
  | zero => intro t b buf p _ _ h; omega
  | succ fuel ih =>
    intro t b buf p hlen hben hfuel
    rcases Nat.eq_zero_or_pos t with ht | ht
    · subst ht
      refine ⟨buf, p, ?_, rfl, ?_, ?_, le_refl _, fun o ho => ho, rfl⟩
      · simp [readLoop, readExit]
      · simp
      · simp
    · have htI : ((t : Int) > 0) := by exact_mod_cast ht
      rw [readLoop, if_pos htI]
      have hbI : ((b : Int) > 0) ↔ 0 < b := by
        constructor
        · intro h; exact_mod_cast h
        · intro h; exact_mod_cast h
      -- the end-of-file case, shared by the branches below
      have eof : ∀ q : Pipe, p.pending = [] → q.pending = [] →
          q.reads.length ≤ p.reads.length → (∀ o ∈ q.reads, o ∈ p.reads) →
          q.selects = p.selects →
          ReadPost t b buf p
            (if (b : Int) > 0 then some (some (b : Int), buf, q) else some (none, buf, q)) := by
        intro q hp hq hr hm hs
        have hx : readExit t b p.pending.length = if 0 < b then some (b : Int) else none := by
          simp [readExit, hp]
          omega
        refine ⟨buf, q, ?_, rfl, ?_, ?_, hr, hm, hs⟩
        · rw [hx]
          by_cases h0 : 0 < b
          · simp [h0]
          · have : b = 0 := by omega
            simp [this]
        · simp [hp]
        · simp [hp, hq]
      -- a read that stores `k` bytes
      have chunk : ∀ (k : Nat) (q : Pipe), 0 < k → k ≤ t → k ≤ p.pending.length →
          q.pending = p.pending.drop k → q.reads.length < p.reads.length + (t - (t - k)) →
          q.reads.length ≤ p.reads.length →
          (∀ o ∈ q.reads, o ∈ p.reads) → q.selects = p.selects →
          ReadPost t b buf p
            (readLoop fuel ((t : Int) - (k : Int)) ((b : Int) + (k : Int))
              (writeAt buf b (p.pending.take k)) q) := by
        intro k q hk hkt hkn hq hrl hr hm hs
        have hcl : (p.pending.take k).length = k := by simp [List.length_take]; omega
        have e1 : (t : Int) - (k : Int) = ((t - k : Nat) : Int) := by omega
        have e2 : (b : Int) + (k : Int) = ((b + k : Nat) : Int) := by omega
        rw [e1, e2]
        apply ReadPost.shift hlen hk hkt hkn hq hr hm hs
        apply ih
        · rw [writeAt_length] <;> omega
        · intro o ho; exact hben o (hm o ho)
        · omega
      cases hrd : p.reads with
      | nil =>
        simp only [sys_read, hrd, Int.toNat_ofNat]
        rcases Nat.eq_zero_or_pos p.pending.length with hz | hpos
        · have hp : p.pending = [] := List.length_eq_zero.mp hz
          simp only [hp, List.take_nil, List.length_nil, List.drop_nil, writeAt_nil]
          simp only [Nat.cast_zero, lt_self_iff_false, if_false, if_true]
          apply eof
          · exact hp
          · rfl
          · simp [hrd]
          · simp [hrd]
          · rfl
        · have hk : 0 < min t p.pending.length := by omega
          have hne : ¬ (((p.pending.take t).length : Int) < 0) := by omega
          have hne0 : ¬ (((p.pending.take t).length : Int) = 0) := by
            simp [List.length_take]; omega
          rw [if_neg hne, if_neg hne0]
          have hl : (p.pending.take t).length = min t p.pending.length := by
            simp [List.length_take]
          have ht2 : p.pending.take t = p.pending.take (min t p.pending.length) := by
            rw [List.take_eq_take]; omega
          rw [hl, ht2]
          apply chunk
          · exact hk
          · omega
          · omega
          · show p.pending.drop t = p.pending.drop (min t p.pending.length)
            exact drop_min_length _ _
          · simp [hrd]; omega
          · simp [hrd]
          · simp [hrd]
          · rfl
      | cons o rs =>
        have hob : o.benign = true := hben o (by simp [hrd])
        cases o with
        | error e =>
          have he : e = EAGAIN ∨ e = EINTR := by simpa [ReadOutcome.benign] using hob
          simp only [sys_read, hrd, writeAt_nil]
          rw [if_pos (by decide), if_pos he]
          have hq := ih t b buf
            { selects := p.selects, reads := rs, pending := p.pending,
              readCalls := p.readCalls + 1 } hlen
            (fun o ho => hben o (by simp only [hrd]; exact List.mem_cons_of_mem _ ho))
            (by simp only [hrd, List.length_cons] at hfuel
                show rs.length + t < fuel
                omega)
          exact @ReadPost.same_pending t b buf p
            { selects := p.selects, reads := rs, pending := p.pending,
              readCalls := p.readCalls + 1 } _ rfl (by simp [hrd])
            (fun o ho => by simp only [hrd]; exact List.mem_cons_of_mem _ ho) rfl hq
        | data n =>
          have hn : 0 < n := by simpa [ReadOutcome.benign] using hob
          simp only [sys_read, hrd, Int.toNat_ofNat]
          rcases Nat.eq_zero_or_pos p.pending.length with hz | hpos
          · have hp : p.pending = [] := List.length_eq_zero.mp hz
            simp only [hp, List.take_nil, List.length_nil, List.drop_nil, writeAt_nil]
            simp only [Nat.cast_zero, lt_self_iff_false, if_false, if_true]
            apply eof
            · exact hp
            · rfl
            · simp [hrd]
            · intro o ho; simp only [hrd]; exact List.mem_cons_of_mem _ ho
            · rfl
          · have hk : 0 < min (min n t) p.pending.length := by omega
            have hne : ¬ (((p.pending.take (min n t)).length : Int) < 0) := by omega
            have hne0 : ¬ (((p.pending.take (min n t)).length : Int) = 0) := by
              simp [List.length_take]; omega
            rw [if_neg hne, if_neg hne0]
            have hl : (p.pending.take (min n t)).length = min (min n t) p.pending.length := by
              simp [List.length_take]
            rw [hl, take_min_length p.pending (min n t)]
            apply chunk
            · exact hk
            · omega
            · omega
            · show p.pending.drop (min n t) = p.pending.drop (min (min n t) p.pending.length)
              exact drop_min_length _ _
            · simp [hrd]; omega
            · simp [hrd]
            · intro o ho; simp only [hrd]; exact List.mem_cons_of_mem _ ho
            · rfl

/-! ## Lemmas on the reader loop -/

theorem sys_select_spec (p : Pipe) (h : ∀ r ∈ p.selects, r.benign = true) :
    (sys_select p).1.benign = true ∧ (sys_select p).2.reads = p.reads ∧
    (sys_select p).2.pending = p.pending ∧
    (∀ r ∈ (sys_select p).2.selects, r.benign = true) ∧
    (sys_select p).2.selects.length ≤ p.selects.length ∧
    (((sys_select p).1.retVal = 0 ∨ (sys_select p).1.isset = false) →
      (sys_select p).2.selects.length < p.selects.length) := by
  obtain ⟨sels, rds, pend, n⟩ := p
  cases sels with
  | nil =>
    refine ⟨rfl, rfl, rfl, ?_, ?_, ?_⟩
    · intro r hr; exact h r hr
    · exact le_refl _
    · intro hc
      simp [sys_select] at hc
  | cons r rs =>
    refine ⟨h r (List.mem_cons_self _ _), rfl, rfl, ?_, ?_, ?_⟩
    · intro x hx; exact h x (List.mem_cons_of_mem _ hx)
    · simp [sys_select]
    · intro _; simp [sys_select]

theorem CaptureProcess_started (fuel : Nat) (c : PipeVideoCapturer) (buf : List UInt8)
    (p : Pipe) (hquit : c.quit_ = false) (hst : c._captureStarted = true) :
    CaptureProcess fuel c buf p =
      if (sys_select p).1.retVal < 0 ∧ (sys_select p).1.errno ≠ EINTR then
        some (false, buf, (sys_select p).2, [])
      else if (sys_select p).1.retVal = 0 ∨ (sys_select p).1.isset = false then
        some (true, buf, (sys_select p).2, [])
      else
        (readLoop fuel c._bufsize 0 buf (sys_select p).2).map fun x =>
          match x.1 with
          | none => (false, x.2.1, x.2.2, [])
          | some n => (true, x.2.1, x.2.2, if n = c._bufsize then [x.2.1] else []) := by
  unfold CaptureProcess
  simp only [hquit, hst, Bool.false_eq_true, if_false, if_true]
  split_ifs with h1 h2 h3 h4 h5 <;> first
    | rfl
    | (exfalso; simp_all; done)
    | skip
  rcases readLoop fuel c._bufsize 0 buf (sys_select p).2 with _ | ⟨_ | n, b, q⟩
  · rfl
  · rfl
  · by_cases hn : n = c._bufsize <;> simp [hn]

theorem CaptureThread.loop_spec (inner : Nat) (c : PipeVideoCapturer) (S : Nat)
    (hS : 0 < S) (hquit : c.quit_ = false) (hst : c._captureStarted = true)
    (hb : c._bufsize = (S : Int)) (fuel : Nat) :
    ∀ (frames : List (List UInt8)) (tail buf : List UInt8) (p : Pipe),
      buf.length = S → (∀ f ∈ frames, f.length = S) → tail.length < S →
      p.pending = frames.flatten ++ tail →
      (∀ r ∈ p.selects, r.benign = true) → (∀ o ∈ p.reads, o.benign = true) →
      p.reads.length + S < inner →
      p.selects.length + p.reads.length + p.pending.length < fuel →
      ∃ buf1 p1, CaptureThread.loop inner c fuel buf p = some (buf1, p1, frames) ∧
        p1.pending = [] := by
  induction fuel with
  | zero => intro _ _ _ _ _ _ _ _ _ _ _ h; omega
  | succ fuel ih =>
    intro frames tail buf p hbuf hfr htail hpend hsel hrd hinner hfuel
    obtain ⟨hrb, hreads, hpending, hsel1, hlen1, hlt1⟩ := sys_select_spec p hsel
    rw [CaptureThread.loop, CaptureProcess_started inner c buf p hquit hst]
    have hnot : ¬ ((sys_select p).1.retVal < 0 ∧ (sys_select p).1.errno ≠ EINTR) := by
      intro ⟨h1, h2⟩
      have := hrb
      simp only [SelectResult.benign, decide_eq_true_eq] at this
      omega
    rw [if_neg hnot]
    by_cases hskip : (sys_select p).1.retVal = 0 ∨ (sys_select p).1.isset = false
    · rw [if_pos hskip]
      have hlt := hlt1 hskip
      obtain ⟨buf1, p1, h1, h2⟩ := ih frames tail buf (sys_select p).2 hbuf hfr htail
        (by rw [hpending, hpend]) hsel1 (by rw [hreads]; exact hrd)
        (by rw [hreads]; exact hinner) (by rw [hreads, hpending]; omega)
      refine ⟨buf1, p1, ?_, h2⟩
      simp only [h1, List.nil_append]
    · rw [if_neg hskip, hb]
      have hpost := readLoop_spec inner S 0 buf (sys_select p).2 (by omega)
        (by rw [hreads]; exact hrd) (by rw [hreads]; exact hinner)
      obtain ⟨buf2, p2, hres, hl2, htk, hp2, hr2, hm2, hs2⟩ := hpost
      simp only [Nat.cast_zero] at hres
      rw [hres]
      have hfl : p2.selects.length + p2.reads.length ≤ p.selects.length + p.reads.length := by
        rw [hs2, hreads] at *; omega
      have hsel2 : ∀ r ∈ p2.selects, r.benign = true := by rw [hs2]; exact hsel1
      have hrd2 : ∀ o ∈ p2.reads, o.benign = true := by
        intro o ho
        have := hm2 o ho
        rw [hreads] at this
        exact hrd o this
      have hin2 : p2.reads.length + S < inner := by rw [hreads] at hr2; omega
      cases frames with
      | nil =>
        have hpe : (sys_select p).2.pending = tail := by rw [hpending, hpend]; simp
        rw [hpe] at hres htk hp2 ⊢
        have hp2nil : p2.pending = [] := by
          rw [hp2]; exact List.drop_eq_nil_of_le (by omega)
        have hpl : p.pending.length = tail.length := by rw [hpend]; simp
        by_cases h0 : 0 < tail.length
        · have hx : readExit S 0 tail.length = some ((tail.length : Nat) : Int) := by
            have : ¬ S ≤ tail.length := by omega
            simp [readExit, this, h0]
          have hne : ¬ (((tail.length : Nat) : Int) = (S : Int)) := by omega
          obtain ⟨buf1, p1, h1, h2⟩ := ih [] [] buf2 p2 (by rw [hl2, hbuf]) (by simp) hS
            (by simp [hp2nil]) hsel2 hrd2 hin2 (by rw [hp2nil]; simp; omega)
          refine ⟨buf1, p1, ?_, h2⟩
          simp [hx, hne, h1]
        · have hx : readExit S 0 tail.length = none := by
            have : ¬ S ≤ tail.length := by omega
            simp [readExit, this, h0]
          refine ⟨buf2, p2, ?_, hp2nil⟩
          simp [hx]
      | cons f fs =>
        have hf : f.length = S := hfr f (List.mem_cons_self _ _)
        have hpe : (sys_select p).2.pending = f ++ (fs.flatten ++ tail) := by
          rw [hpending, hpend]; simp
        have hn : S ≤ (sys_select p).2.pending.length := by rw [hpe]; simp; omega
        have hpl : p.pending.length = (sys_select p).2.pending.length := by rw [hpending]
        have hx : readExit S 0 (sys_select p).2.pending.length = some (S : Int) := by
          simp [readExit, hn]
        have hbuf2 : buf2 = f := by
          have e : 0 + min S (sys_select p).2.pending.length = S := by omega
          rw [e, hpe, ← hf, List.take_left, List.take_zero, List.nil_append] at htk
          rw [← htk, List.take_of_length_le]
          omega
        have hp2e : p2.pending = fs.flatten ++ tail := by
          rw [hp2, hpe, ← hf, List.drop_left]
        obtain ⟨buf1, p1, h1, h2⟩ := ih fs tail buf2 p2 (by rw [hl2, hbuf])
          (fun g hg => hfr g (List.mem_cons_of_mem _ hg)) htail hp2e hsel2 hrd2 hin2
          (by rw [hp2, List.length_drop]; omega)
        rw [hbuf2] at h1
        refine ⟨buf1, p1, ?_, h2⟩
        simp [hx, h1, hbuf2]

theorem StartCapture_fresh (c0 : PipeVideoCapturer) (config : PipeVideoCapturerConfig)
    (rt : Runtime) (ptr : Nat) (hstop : c0._captureStarted = false)
    (hthread : c0._captureThread = none)
    (hnew : operatorNew rt (frameBytes config.width config.height) = some ptr) :
    StartCapture c0 config rt =
      (0,
       { c0 with _width := config.width, _height := config.height,
                 _framerate := config.framerate,
                 _bufsize := frameBytes config.width config.height,
                 _buffer := some ptr, _captureThread := some rt.threadHandle,
                 quit_ := false, _captureStarted := true },
       [Effect.alloc (frameBytes config.width config.height) (some ptr),
        Effect.spawn rt.threadHandle]) := by
  simp [StartCapture, StartCapture.start, AllocateVideoBuffers, hstop, hthread, hnew]

theorem operatorNew_of_pos (rt : Runtime) (ptr : Nat) (size : Int)
    (hnew : rt.newResult = some ptr) (hsize : 0 < size) : operatorNew rt size = some ptr := by
  have : ¬ size < 0 := by omega
  simp [operatorNew, this, hnew]

/-- The reader loop on a freshly started session whose pipe holds whole frames
followed by fewer bytes than one frame. -/
theorem CaptureThread_started_spec
    (c0 : PipeVideoCapturer) (config : PipeVideoCapturerConfig) (rt : Runtime) (ptr : Nat)
    (frames : List (List UInt8)) (tail buf : List UInt8)
    (selects : List SelectResult) (reads : List ReadOutcome) (fuel : Nat)
    (hstop : c0._captureStarted = false) (hthread : c0._captureThread = none)
    (hnew : rt.newResult = some ptr)
    (hside : 0 < frameBytes config.width config.height)
    (hframes : ∀ f ∈ frames, (f.length : Int) = frameBytes config.width config.height)
    (htail : (tail.length : Int) < frameBytes config.width config.height)
    (hbuf : (buf.length : Int) = frameBytes config.width config.height)
    (hsel : ∀ r ∈ selects, r.benign = true) (hrd : ∀ o ∈ reads, o.benign = true)
    (hfuel : selects.length + reads.length + (frames.flatten ++ tail).length +
      (frameBytes config.width config.height).toNat < fuel) :
    (StartCapture c0 config rt).1 = 0 ∧
    (CaptureThread fuel (StartCapture c0 config rt).2.1 buf
        { selects := selects, reads := reads, pending := frames.flatten ++ tail,
          readCalls := 0 }).map (fun r => r.2.2) = some frames := by
  rw [StartCapture_fresh c0 config rt ptr hstop hthread (operatorNew_of_pos rt ptr _ hnew hside)]
  refine ⟨rfl, ?_⟩
  have hSz : frameBytes config.width config.height =
      (((frameBytes config.width config.height).toNat : Nat) : Int) := by omega
  obtain ⟨buf1, p1, h1, _⟩ := CaptureThread.loop_spec fuel
    { c0 with _width := config.width, _height := config.height,
              _framerate := config.framerate,
              _bufsize := frameBytes config.width config.height,
              _buffer := some ptr, _captureThread := some rt.threadHandle,
              quit_ := false, _captureStarted := true }
    (frameBytes config.width config.height).toNat (by omega) rfl rfl hSz fuel
    frames tail buf
    { selects := selects, reads := reads, pending := frames.flatten ++ tail, readCalls := 0 }
    (by omega) (fun f hf => by have := hframes f hf; omega) (by omega) rfl hsel hrd
    (by simp only []; omega) (by simp only []; omega)
  simp only [CaptureThread, h1, Option.map_some']

/-! ## The claims on the pipe frame source -/

/-- C1: for every width and height with positive frame size `S`, every list of
`S`-byte frames and every schedule of short reads, `EAGAIN`/`EINTR` results,
timeouts and interrupted waits, the reader loop on a session started with
those dimensions ends, and its `OnCaptured` calls receive exactly the frames
written, in write order. -/
theorem reader_loop_forwards_written_frames
    (c0 : PipeVideoCapturer) (config : PipeVideoCapturerConfig) (rt : Runtime) (ptr : Nat)
    (frames : List (List UInt8)) (buf : List UInt8)
    (selects : List SelectResult) (reads : List ReadOutcome) (fuel : Nat)
    (hstop : c0._captureStarted = false) (hthread : c0._captureThread = none)
    (hnew : rt.newResult = some ptr)
    (hsize : 0 < frameBytes config.width config.height)
    (hframes : ∀ f ∈ frames, (f.length : Int) = frameBytes config.width config.height)
    (hbuf : (buf.length : Int) = frameBytes config.width config.height)
    (hsel : ∀ r ∈ selects, r.benign = true) (hrd : ∀ o ∈ reads, o.benign = true)
    (hfuel : selects.length + reads.length + frames.flatten.length +
      (frameBytes config.width config.height).toNat < fuel) :
    (StartCapture c0 config rt).1 = 0 ∧
    (CaptureThread fuel (StartCapture c0 config rt).2.1 buf
        { selects := selects, reads := reads, pending := frames.flatten,
          readCalls := 0 }).map (fun r => r.2.2) = some frames := by
  have h := CaptureThread_started_spec c0 config rt ptr frames [] buf selects reads fuel
    hstop hthread hnew hsize hframes (by simpa using hsize) hbuf hsel hrd
    (by simpa using hfuel)
  simpa using h

/-- C1 at two six-byte frames delivered as 1 + 4 + 1 and 6 bytes. -/
theorem reader_loop_forwards_written_frames_witness :
    (CaptureThread 40 (StartCapture sampleCapturer sampleConfig sampleRuntime).2.1
        [0, 0, 0, 0, 0, 0]
        { selects := sampleSelects, reads := sampleReads, pending := sampleFrames.flatten,
          readCalls := 0 }).map (fun r => r.2.2) = some sampleFrames :=
  (reader_loop_forwards_written_frames sampleCapturer sampleConfig sampleRuntime 7
    sampleFrames [0, 0, 0, 0, 0, 0] sampleSelects sampleReads 40
    rfl rfl rfl (by decide) (by decide) (by decide) (by decide) (by decide) (by decide)).2

/-- C2: for every started session with frame size `S > 0`, if the pipe
delivers fewer than `S` bytes in total, in any split across reads, and then
end-of-file, the reader loop ends without a single `OnCaptured` call. -/
theorem reader_loop_discards_partial_frame
    (c0 : PipeVideoCapturer) (config : PipeVideoCapturerConfig) (rt : Runtime) (ptr : Nat)
    (bytes buf : List UInt8)
    (selects : List SelectResult) (reads : List ReadOutcome) (fuel : Nat)
    (hstop : c0._captureStarted = false) (hthread : c0._captureThread = none)
    (hnew : rt.newResult = some ptr)
    (hsize : 0 < frameBytes config.width config.height)
    (hshort : (bytes.length : Int) < frameBytes config.width config.height)
    (hbuf : (buf.length : Int) = frameBytes config.width config.height)
    (hsel : ∀ r ∈ selects, r.benign = true) (hrd : ∀ o ∈ reads, o.benign = true)
    (hfuel : selects.length + reads.length + bytes.length +
      (frameBytes config.width config.height).toNat < fuel) :
    (StartCapture c0 config rt).1 = 0 ∧
    (CaptureThread fuel (StartCapture c0 config rt).2.1 buf
        { selects := selects, reads := reads, pending := bytes,
          readCalls := 0 }).map (fun r => r.2.2) = some [] :=
  CaptureThread_started_spec c0 config rt ptr [] bytes buf selects reads fuel
    hstop hthread hnew hsize (fun _ hf => absurd hf (List.not_mem_nil _)) hshort hbuf hsel hrd
    hfuel

/-- C2 at five bytes of a six-byte frame, delivered as 1 + 4 bytes. -/
theorem reader_loop_discards_partial_frame_witness :
    (CaptureThread 40 (StartCapture sampleCapturer sampleConfig sampleRuntime).2.1
        [0, 0, 0, 0, 0, 0]
        { selects := sampleSelects, reads := sampleReads, pending := [1, 2, 3, 4, 5],
          readCalls := 0 }).map (fun r => r.2.2) = some [] :=
  (reader_loop_discards_partial_frame sampleCapturer sampleConfig sampleRuntime 7
    [1, 2, 3, 4, 5] [0, 0, 0, 0, 0, 0] sampleSelects sampleReads 40
    rfl rfl rfl (by decide) (by decide) (by decide) (by decide) (by decide) (by decide)).2

/-- C3: when capture is already started with dimensions `(w, h)`, a
`StartCapture` call whose configuration has that width and height (any
framerate, any fifo name) returns 0, leaves every member of the capturer as it
was (buffer, buffer size, reader thread, descriptor, framerate, started flag)
and does nothing else: no allocation, no thread spawned. -/
theorem StartCapture_same_dimensions_is_noop
    (c : PipeVideoCapturer) (config : PipeVideoCapturerConfig) (rt : Runtime)
    (hstarted : c._captureStarted = true)
    (hwidth : config.width = c._width) (hheight : config.height = c._height) :
    StartCapture c config rt = (0, c, []) := by
  simp [StartCapture, hstarted, hwidth, hheight]

/-- C3 on the session started with `sampleConfig`, asked again for 2x2 at
another framerate and with another allocator. -/
theorem StartCapture_same_dimensions_is_noop_witness :
    StartCapture (StartCapture sampleCapturer sampleConfig sampleRuntime).2.1
        { video_fifo := "other", width := 2, height := 2, framerate := 15 }
        { newResult := some 99, threadHandle := 2 } =
      (0, (StartCapture sampleCapturer sampleConfig sampleRuntime).2.1, []) :=
  StartCapture_same_dimensions_is_noop _ _ _ (by decide) (by decide) (by decide)

/-- C4: when capture is started and the requested width or height differs,
`StartCapture` first does what `StopCapture` does (the reader thread, if any,
is told to quit and joined, the old buffer is deleted, a descriptor other than
standard input is closed, the started flag is cleared) and then starts the new
session: width, height and framerate are the requested ones, a buffer of
`width * (height + height / 2)` bytes is allocated, a reader thread is spawned
with the quit flag cleared, the started flag is set and 0 is returned, provided
the allocation succeeds. -/
theorem StartCapture_new_dimensions_restarts
    (c : PipeVideoCapturer) (config : PipeVideoCapturerConfig) (rt : Runtime) (ptr : Nat)
    (hstarted : c._captureStarted = true)
    (hdims : ¬ (config.width = c._width ∧ config.height = c._height))
    (hnew : operatorNew rt (frameBytes config.width config.height) = some ptr) :
    (StopCapture c).2.1._captureStarted = false ∧
    (StopCapture c).2.1._captureThread = none ∧
    (c._captureThread.isSome = true → (StopCapture c).2.1.quit_ = true) ∧
    (StopCapture c).2.2 =
      (match c._captureThread with
        | some t => [Effect.join t]
        | none => []) ++
      [Effect.delete c._buffer] ++
      (if c._fd ≠ 0 then [Effect.close c._fd] else []) ∧
    StartCapture c config rt =
      (0,
       { _fd := if c._fd ≠ 0 then -1 else 0,
         _width := config.width, _height := config.height,
         _framerate := config.framerate,
         _bufsize := frameBytes config.width config.height,
         _buffer := some ptr, _captureThread := some rt.threadHandle,
         quit_ := false, _captureStarted := true },
       (StopCapture c).2.2 ++
         [Effect.alloc (frameBytes config.width config.height) (some ptr),
          Effect.spawn rt.threadHandle]) := by
  obtain ⟨fd, w, h, fr, bs, bp, th, q, st⟩ := c
  simp only at hstarted hdims
  subst hstarted
  cases th <;> by_cases hfd : fd = 0 <;>
    simp [StartCapture, StartCapture.start, StopCapture, DeAllocateVideoBuffers,
      AllocateVideoBuffers, hdims, hnew, hfd]

/-- C4 on a 2x2 session reading descriptor 5, restarted as 4x2. -/
theorem StartCapture_new_dimensions_restarts_witness :
    StartCapture (StartCapture sampleFifoCapturer sampleConfig sampleRuntime).2.1
        { video_fifo := "fifo", width := 4, height := 2, framerate := 15 }
        { newResult := some 9, threadHandle := 2 } =
      (0,
       { _fd := -1, _width := 4, _height := 2, _framerate := 15, _bufsize := 12,
         _buffer := some 9, _captureThread := some 2, quit_ := false,
         _captureStarted := true },
       [Effect.join 1, Effect.delete (some 7), Effect.close 5,
        Effect.alloc 12 (some 9), Effect.spawn 2]) :=
  (StartCapture_new_dimensions_restarts
    (StartCapture sampleFifoCapturer sampleConfig sampleRuntime).2.1
    { video_fifo := "fifo", width := 4, height := 2, framerate := 15 }
    { newResult := some 9, threadHandle := 2 } 9 (by decide) (by decide) (by decide)).2.2.2.2

/-- C5: `StopCapture` returns 0 in every state; on a capturer that was never
started (no reader thread, started flag clear) it changes no member, deletes
no buffer and closes no descriptor; and in every state a second `StopCapture`
right after the first returns 0, changes nothing and has no effect at all, so
two calls leave the state one call leaves. -/
theorem StopCapture_safe_and_idempotent (c : PipeVideoCapturer) :
    (StopCapture c).1 = 0 ∧
    (c._captureStarted = false → c._captureThread = none → StopCapture c = (0, c, [])) ∧
    StopCapture (StopCapture c).2.1 = (0, (StopCapture c).2.1, []) := by
  obtain ⟨fd, w, h, fr, bs, bp, th, q, st⟩ := c
  refine ⟨?_, ?_, ?_⟩
  · cases th <;> cases st <;> by_cases hfd : fd = 0 <;>
      simp [StopCapture, DeAllocateVideoBuffers, hfd]
  · intro h1 h2
    simp only at h1 h2
    subst h1 h2
    simp [StopCapture]
  · cases th <;> cases st <;> by_cases hfd : fd = 0 <;>
      simp [StopCapture, DeAllocateVideoBuffers, hfd]

/-- C5 on a capturer that was only constructed and initialised. -/
theorem StopCapture_safe_and_idempotent_witness :
    StopCapture sampleFifoCapturer = (0, sampleFifoCapturer, []) :=
  (StopCapture_safe_and_idempotent sampleFifoCapturer).2.1 rfl rfl

/-- The parts of C10 that hold: on a started session with the quit flag unset,
a step whose wait times out makes no `read` call, forwards no frame and
returns `true`; a step whose wait fails with an error other than `EINTR`
makes no `read` call, forwards no frame and returns `false`. -/
theorem CaptureProcess_timeout_and_wait_failure
    (fuel : Nat) (c : PipeVideoCapturer) (buf : List UInt8) (p : Pipe)
    (r : SelectResult) (rs : List SelectResult)
    (hquit : c.quit_ = false) (hsel : p.selects = r :: rs) :
    (r.retVal = 0 →
      CaptureProcess fuel c buf p = some (true, buf, { p with selects := rs }, [])) ∧
    (r.retVal < 0 → r.errno ≠ EINTR →
      CaptureProcess fuel c buf p = some (false, buf, { p with selects := rs }, [])) := by
  constructor
  · intro h0
    have h1 : ¬ r.retVal < 0 := by omega
    simp [CaptureProcess, sys_select, hsel, hquit, h0]
  · intro h0 he
    simp [CaptureProcess, sys_select, hsel, hquit, h0, he]

/-- C10, the interrupted wait: on the started `sampleConfig` session with the
quit flag unset, when `select` returns `-1` with `errno = EINTR` and leaves the
descriptor set as it was (so `FD_ISSET(_fd, &rSet)` still holds), the step does
not return at once: it makes a `read` call, and with a whole frame pending it
forwards that frame. -/
theorem CaptureProcess_interrupted_wait_reads :
    CaptureProcess 8 (StartCapture sampleCapturer sampleConfig sampleRuntime).2.1
        [0, 0, 0, 0, 0, 0]
        { selects := [{ retVal := -1, errno := EINTR, isset := true }], reads := [],
          pending := [1, 2, 3, 4, 5, 6], readCalls := 0 } =
      some (true, [1, 2, 3, 4, 5, 6],
        { selects := [], reads := [], pending := [], readCalls := 1 },
        [[1, 2, 3, 4, 5, 6]]) := by
  decide

/-- The interrupted wait in general: on a started session with the quit flag
unset, a step whose `select` returns a negative value with `errno = EINTR` and
the descriptor still set in `rSet` enters the read loop. -/
theorem CaptureProcess_interrupted_wait_enters_read_loop
    (fuel : Nat) (c : PipeVideoCapturer) (buf : List UInt8) (p : Pipe)
    (r : SelectResult) (rs : List SelectResult)
    (hquit : c.quit_ = false) (hstarted : c._captureStarted = true)
    (hsel : p.selects = r :: rs)
    (hneg : r.retVal < 0) (hintr : r.errno = EINTR) (hset : r.isset = true) :
    CaptureProcess fuel c buf p =
      (readLoop fuel c._bufsize 0 buf { p with selects := rs }).map fun x =>
        match x.1 with
        | none => (false, x.2.1, x.2.2, [])
        | some n => (true, x.2.1, x.2.2, if n = c._bufsize then [x.2.1] else []) := by
  have h0 : ¬ r.retVal = 0 := by omega
  rw [CaptureProcess_started fuel c buf p hquit hstarted]
  simp [sys_select, hsel, hintr, hset, h0]

/-! ## The frame size and the plane layout -/

theorem wrap32_of_range (x : Int) (h0 : 0 ≤ x) (h1 : x < 2147483648) : wrap32 x = x := by
  unfold wrap32
  omega

/-- C7 as stated fails: for width 3 and height 2 `AllocateVideoBuffers` sets
`_bufsize = 3 * (2 + 1) = 9`, while the documented frame size
`width*height + 2*(width/2*height/2)` is `6 + 2 * 1 = 8` (also when the
product is read as `(width/2) * (height/2)`). -/
theorem bufsize_differs_from_documented_size_at_3x2 :
    (AllocateVideoBuffers { sampleCapturer with _width := 3, _height := 2 }
        sampleRuntime).2.1._bufsize = 9 ∧
    documentedFrameSize 3 2 = 8 ∧
    (3 : Int) * 2 + 2 * (Int.tdiv 3 2 * Int.tdiv 2 2) = 8 ∧
    ¬ ((AllocateVideoBuffers { sampleCapturer with _width := 3, _height := 2 }
        sampleRuntime).2.1._bufsize = documentedFrameSize 3 2) := by
  decide

/-- C7 amended: for every positive even width and even height whose frame size
fits an `int32_t`, the `_bufsize` that `AllocateVideoBuffers` computes is
`width * (height + height / 2)`, equals the documented frame size
`width*height + 2*(width/2*height/2)`, and the three planes `OnCaptured`
addresses tile the buffer: Y starts at 0 with stride `width` and ends where U
starts, at `width*height`; U has stride `width/2` and ends where V starts; V
has stride `width/2` and ends exactly at `_bufsize`. -/
theorem frame_layout_of_even_dimensions (c : PipeVideoCapturer) (rt : Runtime)
    (hw : 0 < c._width) (hh : 0 < c._height)
    (hweven : c._width % 2 = 0) (hheven : c._height % 2 = 0)
    (hfit : c._width * (c._height + c._height / 2) < 2147483648) :
    (AllocateVideoBuffers c rt).2.1._bufsize = c._width * (c._height + c._height / 2) ∧
    (AllocateVideoBuffers c rt).2.1._bufsize = documentedFrameSize c._width c._height ∧
    (OnCaptured c).data_y = 0 ∧ (OnCaptured c).stride_y = c._width ∧
    planeEnd (OnCaptured c).data_y (OnCaptured c).stride_y c._width c._height =
      (OnCaptured c).data_u ∧
    (OnCaptured c).data_u = c._width * c._height ∧
    (OnCaptured c).stride_u = c._width / 2 ∧
    planeEnd (OnCaptured c).data_u (OnCaptured c).stride_u
        (chromaSize c._width) (chromaSize c._height) = (OnCaptured c).data_v ∧
    (OnCaptured c).stride_v = c._width / 2 ∧
    planeEnd (OnCaptured c).data_v (OnCaptured c).stride_v
        (chromaSize c._width) (chromaSize c._height) =
      (AllocateVideoBuffers c rt).2.1._bufsize := by
  obtain ⟨fd, w, h, fr, bs, bp, th, q, st⟩ := c
  simp only at hw hh hweven hheven hfit
  obtain ⟨a, rfl⟩ : ∃ a, w = 2 * a := ⟨w / 2, by omega⟩
  obtain ⟨b, rfl⟩ : ∃ b, h = 2 * b := ⟨h / 2, by omega⟩
  have ha : 0 < a := by omega
  have hb : 0 < b := by omega
  have hab : 0 < a * b := Int.mul_pos ha hb
  have e1 : (2 * b) / 2 = b := by omega
  have e2 : (2 * a) / 2 = a := by omega
  have t1 : Int.tdiv (2 * b) 2 = b := by
    rw [Int.tdiv_eq_ediv (by omega) (by omega)]; omega
  have t2 : Int.tdiv (2 * a) 2 = a := by
    rw [Int.tdiv_eq_ediv (by omega) (by omega)]; omega
  have t3 : Int.tdiv (2 * a + 1) 2 = a := by
    rw [Int.tdiv_eq_ediv (by omega) (by omega)]; omega
  have t4 : Int.tdiv (2 * b + 1) 2 = b := by
    rw [Int.tdiv_eq_ediv (by omega) (by omega)]; omega
  have t5 : Int.tdiv (a * (2 * b)) 2 = a * b := by
    have : a * (2 * b) = 2 * (a * b) := by ring
    rw [this, Int.tdiv_eq_ediv (by omega) (by omega)]; omega
  rw [e1] at hfit
  have hfit2 : 6 * (a * b) < 2147483648 := by
    have : 2 * a * (2 * b + b) = 6 * (a * b) := by ring
    omega
  have w1 : wrap32 (2 * b + b) = 2 * b + b := by
    apply wrap32_of_range
    · omega
    · nlinarith
  have w2 : wrap32 (2 * a * (2 * b + b)) = 2 * a * (2 * b + b) := by
    have : 2 * a * (2 * b + b) = 6 * (a * b) := by ring
    apply wrap32_of_range <;> omega
  have w3 : wrap32 (2 * a * (2 * b)) = 2 * a * (2 * b) := by
    have : 2 * a * (2 * b) = 4 * (a * b) := by ring
    apply wrap32_of_range <;> omega
  have w4 : wrap32 (a * (2 * b)) = a * (2 * b) := by
    have : a * (2 * b) = 2 * (a * b) := by ring
    apply wrap32_of_range <;> omega
  have w5 : wrap32 (a * b) = a * b := by
    apply wrap32_of_range <;> omega
  have hbuf : (AllocateVideoBuffers
      { _fd := fd, _width := 2 * a, _height := 2 * b, _framerate := fr, _bufsize := bs,
        _buffer := bp, _captureThread := th, quit_ := q, _captureStarted := st } rt).2.1._bufsize
      = 2 * a * (2 * b + b) := by
    unfold AllocateVideoBuffers
    simp only [frameBytes, t1, w1, w2]
    split <;> rfl
  simp only [hbuf, OnCaptured, planeEnd, chromaSize, documentedFrameSize, e1, e2, t2, t3, t4,
    t5, w3, w4, w5]
  refine ⟨trivial, ?_, trivial, trivial, ?_, trivial, trivial, ?_, trivial, ?_⟩ <;> ring

/-- C7 amended, at 4x2: twelve bytes, Y is bytes 0..8, U 8..10, V 10..12. -/
theorem frame_layout_of_even_dimensions_witness :
    (AllocateVideoBuffers { sampleCapturer with _width := 4, _height := 2 }
        sampleRuntime).2.1._bufsize = 12 ∧
    documentedFrameSize 4 2 = 12 ∧
    (OnCaptured { sampleCapturer with _width := 4, _height := 2 }).data_u = 8 ∧
    (OnCaptured { sampleCapturer with _width := 4, _height := 2 }).data_v = 10 ∧
    planeEnd (OnCaptured { sampleCapturer with _width := 4, _height := 2 }).data_v
        (OnCaptured { sampleCapturer with _width := 4, _height := 2 }).stride_v
        (chromaSize 4) (chromaSize 2) =
      (AllocateVideoBuffers { sampleCapturer with _width := 4, _height := 2 }
        sampleRuntime).2.1._bufsize :=
  have h := frame_layout_of_even_dimensions
    { sampleCapturer with _width := 4, _height := 2 } sampleRuntime
    (by decide) (by decide) (by decide) (by decide) (by decide)
  ⟨by decide, by decide, by decide, by decide, h.2.2.2.2.2.2.2.2.2⟩

end PipeVideoSrc

namespace SdlSample

/-! ## Lemmas on decimal numerals -/

theorem digitChar_facts (d : Nat) (hd : d < 10) :
    isdigit (Nat.digitChar d) = true ∧ (Nat.digitChar d).toNat - 48 = d ∧
    Nat.digitChar d ≠ 'x' ∧ isspace (Nat.digitChar d) = false ∧
    Nat.digitChar d ≠ '-' ∧ Nat.digitChar d ≠ '+' := by
  interval_cases d <;> decide

theorem isdigit_eq_digitChar (ch : Char) (h : isdigit ch = true) :
    ∃ d, d < 10 ∧ ch = Nat.digitChar d := by
  have h1 : 48 ≤ ch.toNat ∧ ch.toNat ≤ 57 := by simpa [isdigit] using h
  refine ⟨ch.toNat - 48, by omega, ?_⟩
  have h2 : ch = Char.ofNat ch.toNat := (Char.ofNat_toNat ch).symm
  generalize ch.toNat = n at h1 h2
  obtain ⟨h3, h4⟩ := h1
  subst h2
  interval_cases n <;> rfl

theorem digitsValue_numeral (ds : List Nat) (hds : ∀ d ∈ ds, d < 10) :
    ∀ acc, digitsValue acc (numeral ds) = acc * 10 ^ ds.length + numeralValue ds := by
  induction ds with
  | nil => intro acc; simp [digitsValue, numeral, numeralValue]
  | cons d ds ih =>
    intro acc
    obtain ⟨h1, h2, _⟩ := digitChar_facts d (hds d (List.mem_cons_self _ _))
    have ih2 := ih (fun x hx => hds x (List.mem_cons_of_mem _ hx)) (acc * 10 + d)
    simp only [numeral, List.map_cons] at ih2 ⊢
    rw [digitsValue, if_pos h1, h2, ih2]
    simp only [numeralValue, List.reverse_cons, Nat.ofDigits_append, Nat.ofDigits_singleton,
      List.length_reverse, List.length_cons]
    ring

theorem find_numeral (ds : List Nat) (hds : ∀ d ∈ ds, d < 10) (rest : List Char) :
    find (numeral ds ++ 'x' :: rest) 'x' = some ds.length := by
  induction ds with
  | nil => simp [numeral, find]
  | cons d ds ih =>
    obtain ⟨_, _, h3, _⟩ := digitChar_facts d (hds d (List.mem_cons_self _ _))
    have ih2 := ih (fun x hx => hds x (List.mem_cons_of_mem _ hx))
    simp only [numeral, List.map_cons, List.cons_append] at ih2 ⊢
    rw [find, if_neg h3, ih2]
    rfl

theorem strtol_numeral (ds : List Nat) (hds : ∀ d ∈ ds, d < 10) :
    strtol (numeral ds) = saturate64 (numeralValue ds : Int) := by
  cases ds with
  | nil => simp [strtol, numeral, numeralValue, digitsValue]
  | cons d ds =>
    obtain ⟨_, _, _, h4, h5, h6⟩ := digitChar_facts d (hds d (List.mem_cons_self _ _))
    have hv := digitsValue_numeral (d :: ds) hds 0
    simp only [numeral, List.map_cons] at hv ⊢
    unfold strtol
    rw [List.dropWhile_cons_of_neg (by simp [h4])]
    split
    · rename_i heq; exact absurd (List.cons.inj heq).1 h5
    · rename_i heq; exact absurd (List.cons.inj heq).1 h6
    · rw [hv]; simp

theorem atoi_numeral (ds : List Nat) (hds : ∀ d ∈ ds, d < 10)
    (hfit : numeralValue ds < 2147483648) : atoi (numeral ds) = (numeralValue ds : Int) := by
  rw [atoi, strtol_numeral ds hds]
  have h1 : saturate64 (numeralValue ds : Int) = (numeralValue ds : Int) := by
    unfold saturate64
    split_ifs <;> omega
  rw [h1]
  exact PipeVideoSrc.wrap32_of_range _ (by omega) (by omega)

/-! ## Lemmas on `GetSize` and the resolution validator -/

theorem not_preset_of_mem_x (s : String) (h : 'x' ∈ s.data) :
    s ≠ "QVGA" ∧ s ≠ "VGA" ∧ s ≠ "HD" ∧ s ≠ "FHD" ∧ s ≠ "4K" := by
  refine ⟨?_, ?_, ?_, ?_, ?_⟩ <;>
  · intro heq
    subst heq
    revert h
    decide

theorem find_eq_none (s : List Char) (ch : Char) (h : ch ∉ s) : find s ch = none := by
  induction s with
  | nil => rfl
  | cons d ds ih =>
    have h1 : d ≠ ch := fun e => h (by simp [e])
    have h2 : ch ∉ ds := fun e => h (List.mem_cons_of_mem _ e)
    rw [find, if_neg h1, ih h2]
    rfl

theorem find_some_split (s : List Char) (ch : Char) :
    ∀ pos, find s ch = some pos → s = s.take pos ++ ch :: s.drop (pos + 1) := by
  induction s with
  | nil => intro pos h; simp [find] at h
  | cons d ds ih =>
    intro pos h
    rw [find] at h
    by_cases hd : d = ch
    · rw [if_pos hd] at h
      have : pos = 0 := by simpa using h.symm
      subst this
      simp [hd]
    · rw [if_neg hd] at h
      cases hf : find ds ch with
      | none => rw [hf] at h; simp at h
      | some i =>
        rw [hf] at h
        have : pos = i + 1 := by simpa using h.symm
        subst this
        have := ih i hf
        simp only [List.take_succ_cons, List.drop_succ_cons, List.cons_append]
        rw [← this]

theorem all_isdigit_eq_numeral (cs : List Char) (h : ∀ ch ∈ cs, isdigit ch = true) :
    ∃ ds, (∀ d ∈ ds, d < 10) ∧ cs = numeral ds := by
  induction cs with
  | nil => exact ⟨[], by simp, rfl⟩
  | cons ch cs ih =>
    obtain ⟨ds, hds, hcs⟩ := ih (fun x hx => h x (List.mem_cons_of_mem _ hx))
    obtain ⟨d, hd, hch⟩ := isdigit_eq_digitChar ch (h ch (List.mem_cons_self _ _))
    refine ⟨d :: ds, ?_, ?_⟩
    · intro x hx
      rcases List.mem_cons.mp hx with rfl | hx
      · exact hd
      · exact hds x hx
    · simp [numeral, hch, hcs]

theorem matchesNumber_eq_numeral (cs : List Char) (h : matchesNumber cs = true) :
    ∃ ds, (∀ d ∈ ds, d < 10) ∧ cs = numeral ds := by
  apply all_isdigit_eq_numeral
  cases cs with
  | nil => simp [matchesNumber] at h
  | cons ch cs =>
    simp only [matchesNumber, Bool.and_eq_true, decide_eq_true_eq, List.all_eq_true] at h
    intro x hx
    rcases List.mem_cons.mp hx with rfl | hx
    · simp only [isdigit, decide_eq_true_eq]; omega
    · exact h.2 x hx

theorem GetSize_numerals (config : SDLSampleConfig) (wd hd : List Nat)
    (hres : config.resolution = String.mk (numeral wd ++ 'x' :: numeral hd))
    (hwd : ∀ d ∈ wd, d < 10) (hhd : ∀ d ∈ hd, d < 10)
    (hwfit : numeralValue wd < 2147483648) (hhfit : numeralValue hd < 2147483648) :
    config.GetSize =
      { width := max 16 (numeralValue wd : Int), height := max 16 (numeralValue hd : Int) } := by
  have hx : 'x' ∈ config.resolution.data := by rw [hres]; simp
  obtain ⟨h1, h2, h3, h4, h5⟩ := not_preset_of_mem_x _ hx
  have hlen : (numeral wd).length = wd.length := by simp [numeral]
  have htake : (numeral wd ++ 'x' :: numeral hd).take wd.length = numeral wd := by
    rw [← hlen, List.take_left]
  have hdrop : (numeral wd ++ 'x' :: numeral hd).drop (wd.length + 1) = numeral hd := by
    rw [← hlen, ← List.drop_drop, List.drop_left]
    rfl
  unfold SDLSampleConfig.GetSize
  simp only [h1, h2, h3, h4, h5, if_false]
  rw [hres]
  simp only [find_numeral wd hwd, htake, hdrop, atoi_numeral wd hwd hwfit,
    atoi_numeral hd hhd hhfit]

theorem GetSize_at_least_16 (config : SDLSampleConfig) :
    16 ≤ config.GetSize.width ∧ 16 ≤ config.GetSize.height := by
  unfold SDLSampleConfig.GetSize
  simp only []
  split_ifs
  · decide
  · decide
  · decide
  · decide
  · decide
  · split
    · decide
    · exact ⟨le_max_left _ _, le_max_left _ _⟩

/-! ## Lemmas on `Run` -/

theorem Run_video_track (config : SDLSampleConfig) (sdk : Sdk) :
    ((SDLSample.ctor config).Run sdk).video_track_ =
      if config.role ≠ "recvonly" ∧ config.no_video_device = false then
        sdk.CreateVideoTrack sdk.videoLabel
          (sdk.CreateCameraDeviceCapturer
            { width := config.GetSize.width, height := config.GetSize.height,
              fps := config.framerate, device_name := config.video_device })
      else none := by
  by_cases hr : config.role = "recvonly" <;> by_cases hs : config.role = "sendonly" <;>
    cases hv : config.no_video_device <;> cases hm : config.show_me <;>
    cases ha : config.no_audio_device <;>
    simp [SDLSample.Run, SDLSample.ctor, hr, hs, hv, hm, ha]

theorem Run_audio_track (config : SDLSampleConfig) (sdk : Sdk) :
    ((SDLSample.ctor config).Run sdk).audio_track_ =
      if config.role ≠ "recvonly" ∧ config.no_audio_device = false then
        sdk.CreateAudioTrack sdk.audioLabel (sdk.CreateAudioSource {})
      else none := by
  by_cases hr : config.role = "recvonly" <;> by_cases hs : config.role = "sendonly" <;>
    cases hv : config.no_video_device <;> cases hm : config.show_me <;>
    cases ha : config.no_audio_device <;>
    simp [SDLSample.Run, SDLSample.ctor, hr, hs, hv, hm, ha]

/-! ## The claims on the SDL sample -/

/-- C6: `GetSize` maps "QVGA" to 320x240, "VGA" to 640x480, "HD" to 1280x720,
"FHD" to 1920x1080 and "4K" to 3840x2160; every string made of a decimal
numeral `W`, an `x` and a decimal numeral `H` (both within `int` range) to
`(max 16 W, max 16 H)`, so "128x96" to 128x96 and "0x10" to 16x16; every other
string without an `x` to 16x16.  Hence width and height are at least 16 for
every input, and every string the `--resolution` validator accepts is a preset
or has the form `WxH`, for which the result is exactly `(W, H)` when `W` and
`H` are at least 16 (and within `int` range). -/
theorem GetSize_maps_resolution_strings :
    (∀ config : SDLSampleConfig,
      (config.resolution = "QVGA" → config.GetSize = { width := 320, height := 240 }) ∧
      (config.resolution = "VGA" → config.GetSize = { width := 640, height := 480 }) ∧
      (config.resolution = "HD" → config.GetSize = { width := 1280, height := 720 }) ∧
      (config.resolution = "FHD" → config.GetSize = { width := 1920, height := 1080 }) ∧
      (config.resolution = "4K" → config.GetSize = { width := 3840, height := 2160 }) ∧
      (config.resolution = "128x96" → config.GetSize = { width := 128, height := 96 }) ∧
      (config.resolution = "0x10" → config.GetSize = { width := 16, height := 16 })) ∧
    (∀ (config : SDLSampleConfig) (wd hd : List Nat),
      config.resolution = String.mk (numeral wd ++ 'x' :: numeral hd) →
      (∀ d ∈ wd, d < 10) → (∀ d ∈ hd, d < 10) →
      numeralValue wd < 2147483648 → numeralValue hd < 2147483648 →
      config.GetSize =
        { width := max 16 (numeralValue wd : Int),
          height := max 16 (numeralValue hd : Int) }) ∧
    (∀ config : SDLSampleConfig,
      'x' ∉ config.resolution.data →
      config.resolution ≠ "QVGA" → config.resolution ≠ "VGA" → config.resolution ≠ "HD" →
      config.resolution ≠ "FHD" → config.resolution ≠ "4K" →
      config.GetSize = { width := 16, height := 16 }) ∧
    (∀ config : SDLSampleConfig, 16 ≤ config.GetSize.width ∧ 16 ≤ config.GetSize.height) ∧
    (∀ config : SDLSampleConfig, is_valid_resolution config.resolution = "" →
      (config.resolution = "QVGA" ∨ config.resolution = "VGA" ∨ config.resolution = "HD" ∨
        config.resolution = "FHD" ∨ config.resolution = "4K") ∨
      ∃ wd hd : List Nat,
        config.resolution = String.mk (numeral wd ++ 'x' :: numeral hd) ∧
        (∀ d ∈ wd, d < 10) ∧ (∀ d ∈ hd, d < 10) ∧
        (16 ≤ numeralValue wd → 16 ≤ numeralValue hd →
          numeralValue wd < 2147483648 → numeralValue hd < 2147483648 →
          config.GetSize =
            { width := (numeralValue wd : Int), height := (numeralValue hd : Int) })) := by
  refine ⟨?_, GetSize_numerals, ?_, GetSize_at_least_16, ?_⟩
  · intro config
    refine ⟨?_, ?_, ?_, ?_, ?_, ?_, ?_⟩ <;>
    · intro h
      unfold SDLSampleConfig.GetSize
      rw [h]
      decide
  · intro config hx h1 h2 h3 h4 h5
    unfold SDLSampleConfig.GetSize
    simp only [h1, h2, h3, h4, h5, if_false, find_eq_none _ _ hx]
  · intro config hvalid
    unfold is_valid_resolution at hvalid
    by_cases hp : config.resolution = "QVGA" ∨ config.resolution = "VGA" ∨
        config.resolution = "HD" ∨ config.resolution = "FHD" ∨ config.resolution = "4K"
    · exact Or.inl hp
    · right
      rw [if_neg hp] at hvalid
      by_cases hre : regex_match config.resolution.data = true
      · unfold regex_match at hre
        cases hf : find config.resolution.data 'x' with
        | none => rw [hf] at hre; simp at hre
        | some pos =>
          rw [hf] at hre
          simp only [Bool.and_eq_true] at hre
          obtain ⟨wd, hwd, hw⟩ := matchesNumber_eq_numeral _ hre.1
          obtain ⟨hd, hhd, hh⟩ := matchesNumber_eq_numeral _ hre.2
          have hsplit := find_some_split _ _ pos hf
          rw [hw, hh] at hsplit
          have hres : config.resolution = String.mk (numeral wd ++ 'x' :: numeral hd) :=
            String.ext hsplit
          refine ⟨wd, hd, hres, hwd, hhd, ?_⟩
          intro h16w h16h hwfit hhfit
          rw [GetSize_numerals config wd hd hres hwd hhd hwfit hhfit]
          have e1 : max 16 (numeralValue wd : Int) = (numeralValue wd : Int) := by omega
          have e2 : max 16 (numeralValue hd : Int) = (numeralValue hd : Int) := by omega
          rw [e1, e2]
      · rw [if_neg hre] at hvalid
        exact absurd hvalid (by decide)

/-- C6 at "128x96" and at the accepted string "640x360". -/
theorem GetSize_maps_resolution_strings_witness :
    SDLSampleConfig.GetSize { resolution := "128x96" } =
        { width := max 16 (numeralValue [1, 2, 8] : Int),
          height := max 16 (numeralValue [9, 6] : Int) } ∧
    is_valid_resolution "640x360" = "" ∧
    SDLSampleConfig.GetSize { resolution := "0x10" } = { width := 16, height := 16 } :=
  ⟨GetSize_maps_resolution_strings.2.1 { resolution := "128x96" } [1, 2, 8] [9, 6]
      (by decide) (by decide) (by decide) (by decide) (by decide),
   by decide,
   (GetSize_maps_resolution_strings.1 { resolution := "0x10" }).2.2.2.2.2.2 rfl⟩

/-- C8: when the SDK factory calls succeed, `Run` creates an outgoing video
track exactly when `role` is not "recvonly" and `no_video_device` is unset, and
an outgoing audio track exactly when `role` is not "recvonly" and
`no_audio_device` is unset; `OnSetOffer` adds to the peer connection exactly
the tracks that were created; in particular with `role = "sendonly"`,
`no_audio_device` set and a video device there is an outgoing video track and
no outgoing audio track. -/
theorem Run_creates_tracks_by_role_and_device_flags (config : SDLSampleConfig) (sdk : Sdk)
    (hcamera : sdk.cameraOk = true) (hvideo : sdk.videoTrackOk = true)
    (hsource : sdk.audioSourceOk = true) (haudio : sdk.audioTrackOk = true) :
    ((((SDLSample.ctor config).Run sdk).video_track_.isSome = true) ↔
      (config.role ≠ "recvonly" ∧ config.no_video_device = false)) ∧
    ((((SDLSample.ctor config).Run sdk).audio_track_.isSome = true) ↔
      (config.role ≠ "recvonly" ∧ config.no_audio_device = false)) ∧
    (config.role ≠ "recvonly" → config.no_video_device = false →
      ((SDLSample.ctor config).Run sdk).video_track_ =
        some { label := sdk.videoLabel,
               source := some { cam_config :=
                 { width := config.GetSize.width, height := config.GetSize.height,
                   fps := config.framerate, device_name := config.video_device } } }) ∧
    (config.role ≠ "recvonly" → config.no_audio_device = false →
      ∃ src, ((SDLSample.ctor config).Run sdk).audio_track_ =
        some { label := sdk.audioLabel, source := some src }) ∧
    ((SDLSample.ctor config).Run sdk).OnSetOffer sdk =
      (((SDLSample.ctor config).Run sdk).audio_track_.toList.map
        fun t => AddTrackCall.audio t [sdk.streamId]) ++
      (((SDLSample.ctor config).Run sdk).video_track_.toList.map
        fun t => AddTrackCall.video t [sdk.streamId]) ∧
    (config.role = "sendonly" → config.no_audio_device = true →
      config.no_video_device = false →
      ((SDLSample.ctor config).Run sdk).audio_track_ = none ∧
      ∃ t, ((SDLSample.ctor config).Run sdk).video_track_ = some t ∧
        ((SDLSample.ctor config).Run sdk).OnSetOffer sdk =
          [AddTrackCall.video t [sdk.streamId]]) := by
  have hso : ("sendonly" : String) ≠ "recvonly" := by decide
  have hvt := Run_video_track config sdk
  have hat := Run_audio_track config sdk
  simp only [Sdk.CreateVideoTrack, Sdk.CreateAudioTrack, Sdk.CreateCameraDeviceCapturer,
    Sdk.CreateAudioSource, hcamera, hsource, hvideo, haudio, if_true] at hvt hat
  refine ⟨?_, ?_, ?_, ?_, ?_, ?_⟩
  · rw [hvt]
    by_cases h : config.role ≠ "recvonly" ∧ config.no_video_device = false
    · simp [h]
    · simp [if_neg h, h]
  · rw [hat]
    by_cases h : config.role ≠ "recvonly" ∧ config.no_audio_device = false
    · simp [h]
    · simp [if_neg h, h]
  · intro h1 h2
    rw [hvt, if_pos ⟨h1, h2⟩]
  · intro h1 h2
    rw [hat, if_pos ⟨h1, h2⟩]
    exact ⟨_, rfl⟩
  · unfold SDLSample.OnSetOffer
    cases ((SDLSample.ctor config).Run sdk).audio_track_ <;>
      cases ((SDLSample.ctor config).Run sdk).video_track_ <;> rfl
  · intro hr ha hv
    have h1 : config.role ≠ "recvonly" := by rw [hr]; exact hso
    have h2 : ¬ (config.role ≠ "recvonly" ∧ config.no_audio_device = false) := by simp [ha]
    rw [if_pos ⟨h1, hv⟩] at hvt
    rw [if_neg h2] at hat
    refine ⟨hat, _, hvt, ?_⟩
    simp [SDLSample.OnSetOffer, hat, hvt]

/-- C8 at `--role sendonly --no-audio-device` with a working SDK. -/
theorem Run_creates_tracks_by_role_and_device_flags_witness :
    ((SDLSample.ctor { role := "sendonly", no_audio_device := true }).Run
        sampleSdk).audio_track_ = none ∧
    ∃ t, ((SDLSample.ctor { role := "sendonly", no_audio_device := true }).Run
        sampleSdk).video_track_ = some t ∧
      ((SDLSample.ctor { role := "sendonly", no_audio_device := true }).Run
        sampleSdk).OnSetOffer sampleSdk = [AddTrackCall.video t [sampleSdk.streamId]] :=
  (Run_creates_tracks_by_role_and_device_flags
    { role := "sendonly", no_audio_device := true } sampleSdk rfl rfl rfl rfl).2.2.2.2.2
    rfl rfl rfl

/-- C9 fails on the code: with `role = "sendonly"`, an audio device and all
five `disable_*` flags set, `Run` builds (and logs) audio options with the five
features set to `false`, but creates the audio source of the outgoing track
with default-constructed options, in which none of the five is set. -/
theorem Run_audio_source_ignores_disable_flags :
    ((SDLSample.ctor
        { role := "sendonly", disable_echo_cancellation := true,
          disable_auto_gain_control := true, disable_noise_suppression := true,
          disable_highpass_filter := true, disable_residual_echo_detector := true }).Run
      sampleSdk).logged_ao =
      some { echo_cancellation := some false, auto_gain_control := some false,
             noise_suppression := some false, highpass_filter := some false,
             residual_echo_detector := some false } ∧
    ((SDLSample.ctor
        { role := "sendonly", disable_echo_cancellation := true,
          disable_auto_gain_control := true, disable_noise_suppression := true,
          disable_highpass_filter := true, disable_residual_echo_detector := true }).Run
      sampleSdk).audio_track_ =
      some { label := "a",
             source := some { options :=
               { echo_cancellation := none, auto_gain_control := none,
                 noise_suppression := none, highpass_filter := none,
                 residual_echo_detector := none } } } := by
  decide

/-- For every configuration and SDK answer, the audio source of the track `Run`
creates has default-constructed options. -/
theorem Run_audio_source_options_default (config : SDLSampleConfig) (sdk : Sdk)
    (t : AudioTrack) (src : AudioSource)
    (ht : ((SDLSample.ctor config).Run sdk).audio_track_ = some t)
    (hsrc : t.source = some src) : src.options = {} := by
  rw [Run_audio_track] at ht
  unfold Sdk.CreateAudioTrack Sdk.CreateAudioSource at ht
  split_ifs at ht
  · cases ht
    cases hsrc
    rfl
  · cases ht
    cases hsrc

end SdlSample

namespace PipeVideoSrc

/-! ## The descriptor of a started session -/

/-- A successful `Init` leaves a descriptor that is not negative: 0 for the
name "-", the value `open` returned otherwise. -/
theorem Init_success_descriptor (c : PipeVideoCapturer) (pipeName : String) (env : InitEnv)
    (hok : (Init c pipeName env).1 = 0) :
    0 ≤ (Init c pipeName env).2.1._fd ∧
    (pipeName = "-" → (Init c pipeName env).2.1._fd = 0) ∧
    (pipeName ≠ "-" → (Init c pipeName env).2.1._fd = env.openResult) := by
  unfold Init at hok ⊢
  by_cases hn : pipeName = "-"
  · simp only [hn, if_true, ne_eq, not_true_eq_false, false_and, if_false] at hok ⊢
    split_ifs <;> simp
  · simp only [hn, if_false, ne_eq, not_false_eq_true, true_and] at hok ⊢
    by_cases hneg : env.openResult < 0
    · simp [hneg] at hok
    · simp only [hneg, if_false]
      split_ifs <;> simp <;> omega

/-- The descriptor member after `StopCapture`: a started session on a
descriptor other than standard input loses it, nothing else changes it. -/
theorem StopCapture_fd (c : PipeVideoCapturer) :
    (StopCapture c).2.1._fd = if c._captureStarted = true ∧ c._fd ≠ 0 then -1 else c._fd := by
  obtain ⟨fd, w, h, fr, bs, bp, th, q, st⟩ := c
  cases th <;> cases st <;> by_cases hfd : fd = 0 <;>
    simp [StopCapture, DeAllocateVideoBuffers, hfd]

/-- The part of `StartCapture` that starts the session leaves the descriptor
member alone, whether the allocation succeeds or not. -/
theorem StartCapture_start_fd (c : PipeVideoCapturer) (config : PipeVideoCapturerConfig)
    (rt : Runtime) : (StartCapture.start c config rt).2.1._fd = c._fd := by
  obtain ⟨fd, w, h, fr, bs, bp, th, q, st⟩ := c
  cases hnew : operatorNew rt (frameBytes config.width config.height) <;> cases th <;>
    simp [StartCapture.start, AllocateVideoBuffers, hnew]

/-- The descriptor member after `StartCapture`: the call never opens a
descriptor; a restart leaves what its `StopCapture` left. -/
theorem StartCapture_fd_eq (c : PipeVideoCapturer) (config : PipeVideoCapturerConfig)
    (rt : Runtime) :
    (StartCapture c config rt).2.1._fd =
      if c._captureStarted = true ∧ ¬ (config.width = c._width ∧ config.height = c._height)
      then (StopCapture c).2.1._fd else c._fd := by
  unfold StartCapture
  by_cases hst : c._captureStarted = true
  · by_cases hd : config.width = c._width ∧ config.height = c._height
    · simp [hst, hd]
    · simp only [hst, hd, if_true, if_false, not_false_eq_true, and_self]
      exact StartCapture_start_fd _ _ _
  · simp only [hst, if_false, false_and]
    exact StartCapture_start_fd _ _ _

/-- The descriptor member after `StartCapture` is the one before, or -1. -/
theorem StartCapture_fd (c : PipeVideoCapturer) (config : PipeVideoCapturerConfig)
    (rt : Runtime) :
    (StartCapture c config rt).2.1._fd = c._fd ∨ (StartCapture c config rt).2.1._fd = -1 := by
  rw [StartCapture_fd_eq, StopCapture_fd]
  split_ifs
  · exact Or.inr rfl
  · exact Or.inl rfl
  · exact Or.inl rfl

/-- In every state reached by `StartCapture` and `StopCapture` calls the
descriptor member is the one the sequence began with, or -1. -/
theorem runCalls_fd (calls : List Call) :
    ∀ c : PipeVideoCapturer, (runCalls c calls)._fd = c._fd ∨ (runCalls c calls)._fd = -1 := by
  induction calls with
  | nil => intro c; exact Or.inl rfl
  | cons call calls ih =>
    intro c
    have hstep : (Call.apply c call)._fd = c._fd ∨ (Call.apply c call)._fd = -1 := by
      cases call with
      | StartCapture config rt => exact StartCapture_fd c config rt
      | StopCapture =>
        show (StopCapture c).2.1._fd = c._fd ∨ (StopCapture c).2.1._fd = -1
        rw [StopCapture_fd]
        split_ifs
        · exact Or.inr rfl
        · exact Or.inl rfl
    have hrest := ih (Call.apply c call)
    show (runCalls (Call.apply c call) calls)._fd = c._fd ∨
      (runCalls (Call.apply c call) calls)._fd = -1
    rcases hrest with h | h
    · rcases hstep with h2 | h2
      · exact Or.inl (h.trans h2)
      · exact Or.inr (h.trans h2)
    · exact Or.inr h

/-- On standard input the invariant of C11 holds: after `Init("-")`, in every
state reached by `StartCapture` and `StopCapture` calls the descriptor is 0,
the descriptor `Init` set. -/
theorem runCalls_stdin_keeps_descriptor (c : PipeVideoCapturer) (env : InitEnv)
    (calls : List Call) : (runCalls (Init c "-" env).2.1 calls)._fd = 0 := by
  have h0 : (Init c "-" env).2.1._fd = 0 := by
    unfold Init
    simp only [if_true, ne_eq, not_true_eq_false, false_and, if_false]
    split_ifs <;> rfl
  generalize (Init c "-" env).2.1 = c0 at h0
  induction calls generalizing c0 with
  | nil => exact h0
  | cons call calls ih =>
    apply ih
    cases call with
    | StartCapture config rt =>
      show (StartCapture c0 config rt).2.1._fd = 0
      rw [StartCapture_fd_eq, StopCapture_fd, h0]
      simp
    | StopCapture =>
      show (StopCapture c0).2.1._fd = 0
      rw [StopCapture_fd, h0]
      simp

/-- On a descriptor other than standard input a restart loses it: from a
capturer that is not started and has no thread, two `StartCapture` calls with
different dimensions, both allocations succeeding, leave a started session
whose descriptor member is -1. -/
theorem restart_loses_descriptor (c : PipeVideoCapturer)
    (config1 config2 : PipeVideoCapturerConfig) (rt1 rt2 : Runtime) (p1 p2 : Nat)
    (hstop : c._captureStarted = false) (hthread : c._captureThread = none)
    (hfd : c._fd ≠ 0)
    (hdims : ¬ (config2.width = config1.width ∧ config2.height = config1.height))
    (hnew1 : operatorNew rt1 (frameBytes config1.width config1.height) = some p1)
    (hnew2 : operatorNew rt2 (frameBytes config2.width config2.height) = some p2) :
    (runCalls c [Call.StartCapture config1 rt1, Call.StartCapture config2 rt2])._captureStarted
      = true ∧
    (runCalls c [Call.StartCapture config1 rt1, Call.StartCapture config2 rt2])._fd = -1 := by
  obtain ⟨fd, w, h, fr, bs, bp, th, q, st⟩ := c
  simp only at hstop hthread hfd
  subst hstop hthread
  simp [runCalls, Call.apply, StartCapture, StartCapture.start, StopCapture,
    DeAllocateVideoBuffers, AllocateVideoBuffers, hnew1, hnew2, hdims, hfd]

/-- C11 fails on the code: `Init("fifo")` opens descriptor 5 and returns 0;
after `StartCapture` for 2x2 and `StartCapture` for 4x2, both with their
allocation succeeding, the session is started and its `_fd` is -1: the second
call's `StopCapture` closed descriptor 5 and nothing opened it again. -/
theorem restarted_session_has_descriptor_minus_one :
    (Init (PipeVideoCapturer.ctor 0 none false) "fifo" sampleInitEnv).1 = 0 ∧
    (Init (PipeVideoCapturer.ctor 0 none false) "fifo" sampleInitEnv).2.1._fd = 5 ∧
    Call.allocates (Call.StartCapture sampleConfig sampleRuntime) = true ∧
    Call.allocates (Call.StartCapture sampleWideConfig sampleSecondRuntime) = true ∧
    (runCalls (Init (PipeVideoCapturer.ctor 0 none false) "fifo" sampleInitEnv).2.1
        [Call.StartCapture sampleConfig sampleRuntime,
         Call.StartCapture sampleWideConfig sampleSecondRuntime])._captureStarted = true ∧
    (runCalls (Init (PipeVideoCapturer.ctor 0 none false) "fifo" sampleInitEnv).2.1
        [Call.StartCapture sampleConfig sampleRuntime,
         Call.StartCapture sampleWideConfig sampleSecondRuntime])._fd = -1 ∧
    (StartCapture
        (runCalls (Init (PipeVideoCapturer.ctor 0 none false) "fifo" sampleInitEnv).2.1
          [Call.StartCapture sampleConfig sampleRuntime])
        sampleWideConfig sampleSecondRuntime).2.2 =
      [Effect.join 1, Effect.delete (some 7), Effect.close 5,
       Effect.alloc 12 (some 9), Effect.spawn 2] := by
  decide

end PipeVideoSrc
